import Mathlib

set_option maxHeartbeats 1000000

/-!
Shallow embedding of the ThreeForge grid inventory / equipment subsystem
(`src/inventory/Item.ts`, `Inventory.ts`, `Equipment.ts`,
`InventoryComponent.ts`).

In TypeScript, items are mutable objects shared by reference between an
`Inventory` grid, its tracked `Set`, and `Equipment` slots.  We model the heap
of item instances as an association list from instance ids (`Iid`) to item
states; containers hold ids, and every operation threads the store.
-/

/-- Item instance identity (reference identity of the TS object). -/
abbrev Iid := Nat

/-- `ItemConfig` from Item.ts: the immutable definition.  Only the fields the
inventory/equipment subsystem reads are modelled. -/
structure ItemConfig where
  id : String
  width : Nat
  height : Nat
  maxStackCfg : Option Nat := none
  equipSlotCfg : Option String := none
deriving DecidableEq

/-- `config.maxStack ?? 1` (getter `Item.maxStack`). -/
def ItemConfig.maxStack (c : ItemConfig) : Nat := c.maxStackCfg.getD 1

/-- `Item.isStackable`: `maxStack > 1`. -/
def ItemConfig.isStackable (c : ItemConfig) : Bool := decide (1 < c.maxStack)

/-- The mutable runtime state of an `Item` instance: `_quantity`, `gridX`,
`gridY` (TS numbers; quantities and positions are integers here). -/
structure ItemState where
  config : ItemConfig
  quantity : Int
  gridX : Int := -1
  gridY : Int := -1
deriving DecidableEq

def ItemState.maxStack (st : ItemState) : Nat := st.config.maxStack

def ItemState.isStackable (st : ItemState) : Bool := st.config.isStackable

/-- `Item.canAddMore`: `_quantity < maxStack`. -/
def ItemState.canAddMore (st : ItemState) : Bool :=
  decide (st.quantity < (st.maxStack : Int))

/-- `Item.canStackWith(other)`: `this.id === other.id && this.isStackable`. -/
def ItemState.canStackWith (st other : ItemState) : Bool :=
  st.config.id == other.config.id && st.isStackable

/-- The `Item` constructor: `_quantity = Math.min(quantity, maxStack ?? 1)`,
position starts at the unplaced sentinel `(-1, -1)`. -/
def mkItem (c : ItemConfig) (quantity : Int) : ItemState :=
  { config := c, quantity := min quantity (c.maxStack : Int), gridX := -1, gridY := -1 }

/-- `Item.addQuantity(amount)`: adds up to the remaining capacity, returns the
new state together with the amount actually added. -/
def ItemState.addQuantity (st : ItemState) (amount : Int) : ItemState × Int :=
  let canAdd : Int := (st.maxStack : Int) - st.quantity
  let added := min amount canAdd
  ({ st with quantity := st.quantity + added }, added)

/-- `Item.removeQuantity(amount)`: removes up to the current quantity, returns
the new state together with the amount actually removed. -/
def ItemState.removeQuantity (st : ItemState) (amount : Int) : ItemState × Int :=
  let removed := min amount st.quantity
  ({ st with quantity := st.quantity - removed }, removed)

/-- `Item.split(amount)`: `none` if `amount <= 0 || amount >= _quantity`,
otherwise the decremented source and the freshly constructed new instance. -/
def ItemState.split (st : ItemState) (amount : Int) : Option (ItemState × ItemState) :=
  if amount ≤ 0 ∨ st.quantity ≤ amount then none
  else some ({ st with quantity := st.quantity - amount }, mkItem st.config amount)

/-- The heap of live item instances. -/
abbrev Store := List (Iid × ItemState)

def storeFind (s : Store) (i : Iid) : Option ItemState :=
  (List.find? (fun p => p.1 == i) s).map (·.2)

/-- Mutating a field of the TS object named by `i`: replace in place if
present, otherwise append (fresh object). -/
def storeSet (s : Store) (i : Iid) (st : ItemState) : Store :=
  if s.any (fun p => p.1 == i) then
    s.map (fun p => if p.1 == i then (i, st) else p)
  else s ++ [(i, st)]

/-- Insertion-ordered string-keyed map, the behaviour of a JS `Map`:
`get`. -/
def mapGet {α : Type} (l : List (String × α)) (k : String) : Option α :=
  (List.find? (fun p => p.1 == k) l).map (·.2)

/-- JS `Map.set`: overwrite in place when the key is present (keeping its
position in iteration order), append otherwise. -/
def mapSet {α : Type} (l : List (String × α)) (k : String) (v : α) : List (String × α) :=
  if l.any (fun p => p.1 == k) then
    l.map (fun p => if p.1 == k then (k, v) else p)
  else l ++ [(k, v)]

/-! ## The grid -/

/-- `grid: (Item | null)[][]`, row-major: `grid[y][x]`. -/
abbrev Grid := List (List (Option Iid))

/-- Reading `grid[y][x]`; out-of-range reads yield `none` (callers always
bounds-check first in the TS source). -/
def getCellG (g : Grid) (x y : Nat) : Option Iid :=
  ((g[y]?.getD [])[x]?.getD none)

/-- Writing `grid[y][x] = v`. -/
def setCell (g : Grid) (x y : Nat) (v : Option Iid) : Grid :=
  g.set y ((g[y]?.getD []).set x v)

/-- The inner loop of `placeAt`'s write phase: cells `(x, y) .. (x+n-1, y)`. -/
def writeRow (g : Grid) (i : Iid) (x y : Nat) : Nat → Grid
  | 0 => g
  | n + 1 => setCell (writeRow g i x y n) (x + n) y (some i)

/-- The write phase of `placeAt`: every cell of the `w × n` rectangle anchored
at `(x, y)` is set to `item`. -/
def writeRect (g : Grid) (i : Iid) (x y w : Nat) : Nat → Grid
  | 0 => g
  | n + 1 => writeRow (writeRect g i x y w n) i x (y + n) w

/-- `clearItemFromGrid`: scan every cell, nulling those that reference the
item. -/
def clearG (g : Grid) (i : Iid) : Grid :=
  g.map fun row => row.map fun c => if c = some i then none else c

/-! ## Inventory -/

/-- `Inventory`: fixed dimensions, the grid, and the tracked item `Set`
(a JS `Set` iterates in insertion order, so it is a duplicate-free list). -/
structure Inventory where
  width : Nat
  height : Nat
  grid : Grid
  items : List Iid
deriving DecidableEq

/-- The `Inventory` constructor: `height` rows of `width` empty cells. -/
def mkInventory (w h : Nat) : Inventory :=
  ⟨w, h, List.replicate h (List.replicate w none), []⟩

def Inventory.getCell (inv : Inventory) (x y : Nat) : Option Iid :=
  getCellG inv.grid x y

/-- `Set.add`: append if absent, no-op if present. -/
def addIid (l : List Iid) (i : Iid) : List Iid :=
  if l.contains i then l else l ++ [i]

/-- `Inventory.canPlaceAt(item, x, y)`: bounds check, then every covered cell
must be empty or already occupied by this same item. -/
def Inventory.canPlaceAt (inv : Inventory) (i : Iid) (st : ItemState) (x y : Int) : Bool :=
  if x < 0 ∨ y < 0 ∨ (inv.width : Int) < x + st.config.width ∨
      (inv.height : Int) < y + st.config.height then false
  else
    (List.range st.config.height).all fun dy =>
      (List.range st.config.width).all fun dx =>
        match getCellG inv.grid (x.toNat + dx) (y.toNat + dy) with
        | none => true
        | some j => j == i

def Inventory.clearItemFromGrid (inv : Inventory) (i : Iid) : Inventory :=
  { inv with grid := clearG inv.grid i }

/-- `Inventory.placeAt(item, x, y)`: check, clear the old footprint when the
item is already tracked (move-in-place), write the new footprint, update the
item's stored position, add to the tracked set. -/
def Inventory.placeAt (inv : Inventory) (s : Store) (i : Iid) (x y : Int) :
    Inventory × Store × Bool :=
  match storeFind s i with
  | none => (inv, s, false)
  | some st =>
    if inv.canPlaceAt i st x y then
      let inv1 := if inv.items.contains i then inv.clearItemFromGrid i else inv
      let inv2 := { inv1 with
        grid := writeRect inv1.grid i x.toNat y.toNat st.config.width st.config.height }
      let s' := storeSet s i { st with gridX := x, gridY := y }
      ({ inv2 with items := addIid inv2.items i }, s', true)
    else (inv, s, false)

/-- `Inventory.isAreaEmpty(x, y, width, height)`. -/
def Inventory.isAreaEmpty (inv : Inventory) (x y w h : Nat) : Bool :=
  (List.range h).all fun dy =>
    (List.range w).all fun dx => (getCellG inv.grid (x + dx) (y + dy)).isNone

/-- The inner `for (x = 0; x <= width - w; x++)` loop of `findEmptySpace`:
try `n` consecutive columns starting at `x`. -/
def scanX (inv : Inventory) (w h y : Nat) : Nat → Nat → Option Nat
  | _, 0 => none
  | x, n + 1 => if inv.isAreaEmpty x y w h then some x else scanX inv w h y (x + 1) n

/-- The outer `for (y = 0; y <= height - h; y++)` loop of `findEmptySpace`. -/
def scanY (inv : Inventory) (w h : Nat) : Nat → Nat → Option (Nat × Nat)
  | _, 0 => none
  | y, n + 1 =>
    match scanX inv w h y 0 (inv.width - w + 1) with
    | some x => some (x, y)
    | none => scanY inv w h (y + 1) n

/-- `Inventory.findEmptySpace(width, height)`: row-major scan for the first
fully empty `w × h` region.  The TS loop bounds `height - h` / `width - w` are
computed on JS numbers, so a footprint larger than the grid runs no
iterations; the guard reproduces that. -/
def Inventory.findEmptySpace (inv : Inventory) (w h : Nat) : Option (Nat × Nat) :=
  if w ≤ inv.width ∧ h ≤ inv.height then scanY inv w h 0 (inv.height - h + 1) else none

/-- The stack-merge loop of `Inventory.addItem`: for each tracked item in
insertion order, if it stacks with the incoming item and has capacity, move
as much quantity as fits; stop (returning `true`) once the incoming item is
exhausted. -/
def stackLoop (s : Store) (i : Iid) : List Iid → Store × Bool
  | [] => (s, false)
  | j :: rest =>
    match storeFind s j, storeFind s i with
    | some stJ, some stI =>
      if stJ.canStackWith stI && stJ.canAddMore then
        let r := stJ.addQuantity stI.quantity
        let s1 := storeSet s j r.1
        match storeFind s1 i with
        | some stI1 =>
          let stI' := (stI1.removeQuantity r.2).1
          let s2 := storeSet s1 i stI'
          if stI'.quantity = 0 then (s2, true) else stackLoop s2 i rest
        | none => (s1, false)
      else stackLoop s i rest
    | _, _ => (s, false)

/-- The tail of `Inventory.addItem` after stack merging: place any remaining
quantity at the first empty region. -/
def Inventory.addItemPlace (inv : Inventory) (s : Store) (i : Iid) :
    Inventory × Store × Bool :=
  match storeFind s i with
  | none => (inv, s, false)
  | some st =>
    if 0 < st.quantity then
      match inv.findEmptySpace st.config.width st.config.height with
      | some pos => inv.placeAt s i pos.1 pos.2
      | none => (inv, s, false)
    else (inv, s, true)

/-- `Inventory.addItem(item)`: stack merging first (for stackable items), then
auto-placement of the remainder. -/
def Inventory.addItem (inv : Inventory) (s : Store) (i : Iid) :
    Inventory × Store × Bool :=
  match storeFind s i with
  | none => (inv, s, false)
  | some st =>
    if st.isStackable then
      match stackLoop s i inv.items with
      | (s1, true) => (inv, s1, true)
      | (s1, false) => inv.addItemPlace s1 i
    else inv.addItemPlace s i

/-- `Inventory.removeItem(item)`: `false` when not tracked; otherwise clear
the footprint, untrack, and reset the item's position to `(-1, -1)`. -/
def Inventory.removeItem (inv : Inventory) (s : Store) (i : Iid) :
    Inventory × Store × Bool :=
  if inv.items.contains i then
    let inv1 := inv.clearItemFromGrid i
    let s' := match storeFind s i with
      | some st => storeSet s i { st with gridX := -1, gridY := -1 }
      | none => s
    ({ inv1 with items := inv1.items.filter (fun j => j != i) }, s', true)
  else (inv, s, false)

/-- `Inventory.getItemAt(x, y)`: bounds-checked cell lookup. -/
def Inventory.getItemAt (inv : Inventory) (x y : Int) : Option Iid :=
  if x < 0 ∨ y < 0 ∨ (inv.width : Int) ≤ x ∨ (inv.height : Int) ≤ y then none
  else getCellG inv.grid x.toNat y.toNat

/-- The loop of `Inventory.clear`: remove the snapshot of tracked items one at
a time. -/
def clearLoop : Inventory → Store → List Iid → Inventory × Store
  | inv, s, [] => (inv, s)
  | inv, s, j :: rest =>
    let r := inv.removeItem s j
    clearLoop r.1 r.2.1 rest

/-- `Inventory.clear()`. -/
def Inventory.clear (inv : Inventory) (s : Store) : Inventory × Store :=
  clearLoop inv s inv.items

/-- `Inventory.transferTo(item, targetInventory, x?, y?)`: the target must
accept (by `placeAt` with coordinates, by `addItem` otherwise) before the
source clears and untracks the item. -/
def Inventory.transferTo (inv : Inventory) (s : Store) (i : Iid) (tgt : Inventory)
    (xy? : Option (Int × Int)) : Inventory × Inventory × Store × Bool :=
  if inv.items.contains i then
    let r : Inventory × Store × Bool :=
      match xy? with
      | none => tgt.addItem s i
      | some (x, y) => tgt.placeAt s i x y
    if r.2.2 then
      let inv1 := inv.clearItemFromGrid i
      ({ inv1 with items := inv1.items.filter (fun j => j != i) }, r.1, r.2.1, true)
    else (inv, r.1, r.2.1, false)
  else (inv, tgt, s, false)

/-! ## Equipment -/

/-- `EquipmentSlotConfig`. -/
structure SlotConfig where
  id : String
  slotName : String := ""
  acceptedTypes : List String
deriving DecidableEq

/-- Events emitted by `Equipment` (`equipped`, `unequipped`, `changed`). -/
inductive EquipEvent where
  | equippedEv (slot : String) (item : Iid)
  | unequippedEv (slot : String) (item : Iid)
  | changedEv
deriving DecidableEq

/-- `Equipment`: a slot-config registry and the parallel equipped map, both
insertion-ordered JS `Map`s. -/
structure Equipment where
  slots : List (String × SlotConfig)
  equipped : List (String × Option Iid)
deriving DecidableEq

/-- `Equipment.addSlot(config)`: registers (or overwrites) the slot config and
resets the equipped entry to `null`.  The method emits no events. -/
def Equipment.addSlot (eqp : Equipment) (cfg : SlotConfig) : Equipment × List EquipEvent :=
  ({ slots := mapSet eqp.slots cfg.id cfg,
     equipped := mapSet eqp.equipped cfg.id none }, [])

/-- `Equipment.canEquipAt(item, slotId)`: the slot must exist, the item must
have a truthy `equipSlot` tag (in JS the empty string is falsy), and the tag
must be accepted. -/
def Equipment.canEquipAt (eqp : Equipment) (st : ItemState) (slotId : String) : Bool :=
  match mapGet eqp.slots slotId with
  | none => false
  | some cfg =>
    match st.config.equipSlotCfg with
    | none => false
    | some es => if es = "" then false else cfg.acceptedTypes.contains es

/-- `Equipment.getEquipped(slotId)`: `this.equipped.get(slotId) ?? null`. -/
def Equipment.getEquipped (eqp : Equipment) (slotId : String) : Option Iid :=
  (mapGet eqp.equipped slotId).getD none

/-- `Equipment.equip(item, slotId)`: gate on `canEquipAt`, overwrite the slot,
return the displaced item; events fire as `unequipped?`, `equipped`,
`changed`. -/
def Equipment.equip (eqp : Equipment) (i : Iid) (st : ItemState) (slotId : String) :
    Equipment × Option Iid × List EquipEvent :=
  if eqp.canEquipAt st slotId then
    let prev := (mapGet eqp.equipped slotId).getD none
    let eqp' := { eqp with equipped := mapSet eqp.equipped slotId (some i) }
    (eqp', prev,
      (match prev with
       | some p => [EquipEvent.unequippedEv slotId p]
       | none => []) ++ [EquipEvent.equippedEv slotId i, EquipEvent.changedEv])
  else (eqp, none, [])

/-- `Equipment.unequip(slotId)`: clear the slot and return the removed item,
or `null` (and no events) when the slot is empty or unknown. -/
def Equipment.unequip (eqp : Equipment) (slotId : String) :
    Equipment × Option Iid × List EquipEvent :=
  match (mapGet eqp.equipped slotId).getD none with
  | none => (eqp, none, [])
  | some i =>
    ({ eqp with equipped := mapSet eqp.equipped slotId none }, some i,
     [EquipEvent.unequippedEv slotId i, EquipEvent.changedEv])

/-- `Equipment.findCompatibleSlots(item)`: slod ids accepting the item's tag,
in registration order. -/
def Equipment.findCompatibleSlots (eqp : Equipment) (st : ItemState) : List String :=
  (eqp.slots.filter fun p =>
    match st.config.equipSlotCfg with
    | none => false
    | some es => if es = "" then false else p.2.acceptedTypes.contains es).map (·.1)

/-! ## InventoryComponent -/

/-- `InventoryComponent`: one `Inventory` plus an optional `Equipment`. -/
structure InventoryComponent where
  inventory : Inventory
  equipment : Option Equipment
deriving DecidableEq

/-- `InventoryComponent.equipItem(item, slotId?)`: resolve a target slot,
fail fast on incompatibility, remove the item from the inventory, equip it,
try to stow a displaced item, and roll back (re-equip the displaced item,
re-add the original) when stowing fails. -/
def InventoryComponent.equipItem (c : InventoryComponent) (s : Store) (i : Iid)
    (slotId? : Option String) : InventoryComponent × Store × Bool :=
  match c.equipment with
  | none => (c, s, false)
  | some eqp =>
    match storeFind s i with
    | none => (c, s, false)
    | some st =>
      let targetSlot? := match slotId? with
        | some sl => some sl
        | none => (eqp.findCompatibleSlots st).head?
      match targetSlot? with
      | none => (c, s, false)
      | some slot =>
        if slot = "" then (c, s, false)
        else if eqp.canEquipAt st slot then
          let r1 := c.inventory.removeItem s i
          match storeFind r1.2.1 i with
          | none => (⟨r1.1, some eqp⟩, r1.2.1, false)
          | some st1 =>
            let r2 := eqp.equip i st1 slot
            match r2.2.1 with
            | none => (⟨r1.1, some r2.1⟩, r1.2.1, true)
            | some p =>
              let r3 := r1.1.addItem r1.2.1 p
              if r3.2.2 then (⟨r3.1, some r2.1⟩, r3.2.1, true)
              else
                match storeFind r3.2.1 p with
                | none => (⟨r3.1, some r2.1⟩, r3.2.1, false)
                | some stP =>
                  let r4 := r2.1.equip p stP slot
                  if r1.2.2 then
                    let r5 := r3.1.addItem r3.2.1 i
                    (⟨r5.1, some r4.1⟩, r5.2.1, false)
                  else (⟨r3.1, some r4.1⟩, r3.2.1, false)
        else (c, s, false)

/-- `InventoryComponent.unequipItem(slotId)`: check the slot and find space
first (no mutation on failure), then unequip and place at the discovered
position. -/
def InventoryComponent.unequipItem (c : InventoryComponent) (s : Store)
    (slotId : String) : InventoryComponent × Store × Bool :=
  match c.equipment with
  | none => (c, s, false)
  | some eqp =>
    match eqp.getEquipped slotId with
    | none => (c, s, false)
    | some i =>
      match storeFind s i with
      | none => (c, s, false)
      | some st =>
        match c.inventory.findEmptySpace st.config.width st.config.height with
        | none => (c, s, false)
        | some pos =>
          let r1 := eqp.unequip slotId
          let r2 := c.inventory.placeAt s i pos.1 pos.2
          (⟨r2.1, some r1.1⟩, r2.2.1, true)

/-! ## Concrete fixtures used by witnesses and counterexamples -/

/-- A stackable 1×1 potion definition (`maxStack` 5), equippable at type
`"x"`. -/
def fixPotion : ItemConfig :=
  { id := "p", width := 1, height := 1, maxStackCfg := some 5, equipSlotCfg := some "x" }

/-- A non-stackable 1×1 item definition, equippable at type `"x"`. -/
def fixPlain : ItemConfig :=
  { id := "a", width := 1, height := 1, maxStackCfg := none, equipSlotCfg := some "x" }

/-- A non-stackable, non-equippable 1×1 item definition. -/
def fixBlock : ItemConfig :=
  { id := "w", width := 1, height := 1, maxStackCfg := none, equipSlotCfg := none }

/-- Heap for the `equipItem` rollback scenario: item 1 is a potion stack of
quantity 3 sitting at (0,0); item 2 is a potion stack of quantity 4 (worn);
item 3 is a plain item. -/
def sC1 : Store :=
  [(1, { config := fixPotion, quantity := 3, gridX := 0, gridY := 0 }),
   (2, { config := fixPotion, quantity := 4 }),
   (3, { config := fixPlain, quantity := 1 })]

/-- A full 1×1 inventory holding item 1. -/
def invC1 : Inventory := { width := 1, height := 1, grid := [[some 1]], items := [1] }

/-- One slot `"s"` accepting type `"x"`, with item 2 equipped. -/
def eqpC1 : Equipment :=
  { slots := [("s", { id := "s", slotName := "S", acceptedTypes := ["x"] })],
    equipped := [("s", some 2)] }

/-- Heap for the `transferTo` scenario: item 1 (potion ×4) lives in the
source, item 2 (potion ×3) in the target. -/
def sC2 : Store :=
  [(1, { config := fixPotion, quantity := 4, gridX := 0, gridY := 0 }),
   (2, { config := fixPotion, quantity := 3, gridX := 0, gridY := 0 })]

def srcC2 : Inventory := { width := 1, height := 1, grid := [[some 1]], items := [1] }

def tgtC2 : Inventory := { width := 1, height := 1, grid := [[some 2]], items := [2] }

/-- Heap with a single plain 1×1 item, id 6. -/
def sC8 : Store := [(6, { config := fixBlock, quantity := 1 })]

/-- Heap for the `unequipItem` scenario: item 2 is worn. -/
def sC5 : Store := [(2, { config := fixPlain, quantity := 1 })]

def eqpC5 : Equipment :=
  { slots := [("s", { id := "s", slotName := "S", acceptedTypes := ["x"] })],
    equipped := [("s", some 2)] }

/-! ## Association-map lemmas -/


/-! ## Association-map lemmas -/

theorem find?_map_setEntry_ne {κ α : Type} [BEq κ] [LawfulBEq κ] (t : List (κ × α))
    (k k' : κ) (v : α) (h : k' ≠ k) :
    List.find? (fun p => p.1 == k') (t.map (fun p => if p.1 == k then (k, v) else p)) =
      List.find? (fun p => p.1 == k') t := by
  induction t with
  | nil => simp
  | cons b t ih =>
    rcases eq_or_ne b.1 k with hbk | hbk
    · have h1 : (b.1 == k) = true := by simp [hbk]
      have h2 : (b.1 == k') = false := by
        simp only [beq_eq_false_iff_ne, ne_eq, hbk]
        exact fun hh => h hh.symm
      have h3 : (k == k') = false := by
        simp only [beq_eq_false_iff_ne, ne_eq]
        exact fun hh => h hh.symm
      simp [List.find?_cons, h1, h2, h3, ih]
    · have h1 : (b.1 == k) = false := by simp [hbk]
      cases hb : (b.1 == k') <;> simp [List.find?_cons, h1, hb, ih]

theorem find?_map_setEntry_found {κ α : Type} [BEq κ] [LawfulBEq κ] (t : List (κ × α))
    (k : κ) (v : α) (h : t.any (fun p => p.1 == k) = true) :
    List.find? (fun p => p.1 == k) (t.map (fun p => if p.1 == k then (k, v) else p)) =
      some (k, v) := by
  induction t with
  | nil => simp at h
  | cons b t ih =>
    rcases eq_or_ne b.1 k with hbk | hbk
    · have h1 : (b.1 == k) = true := by simp [hbk]
      have h2 : (k == k) = true := by simp
      simp [List.find?_cons, h1, h2]
    · have h1 : (b.1 == k) = false := by simp [hbk]
      have h' : t.any (fun p => p.1 == k) = true := by
        simpa [List.any_cons, h1] using h
      simp [List.find?_cons, h1, ih h']

theorem assocFind_set {κ α : Type} [BEq κ] [LawfulBEq κ] [DecidableEq κ]
    (l : List (κ × α)) (k k' : κ) (v : α) :
    (List.find? (fun p => p.1 == k')
      (if l.any (fun p => p.1 == k) then l.map (fun p => if p.1 == k then (k, v) else p)
       else l ++ [(k, v)])).map (fun p => p.2) =
      if k' = k then some v else (List.find? (fun p => p.1 == k') l).map (fun p => p.2) := by
  cases hany : l.any (fun p => p.1 == k) with
  | true =>
    rw [if_pos rfl]
    rcases eq_or_ne k' k with hk | hk
    · subst hk
      rw [find?_map_setEntry_found l k' v hany]
      simp
    · rw [find?_map_setEntry_ne l k k' v hk, if_neg hk]
  | false =>
    rw [if_neg (by simp), List.find?_append]
    rcases eq_or_ne k' k with hk | hk
    · subst hk
      have hnone : List.find? (fun p => p.1 == k') l = none := by
        rw [List.find?_eq_none]
        intro x hx
        exact List.any_eq_false.mp hany x hx
      have h2 : (k' == k') = true := by simp
      simp [hnone, List.find?, h2]
    · have h3 : (k == k') = false := by
        simp only [beq_eq_false_iff_ne, ne_eq]
        exact fun hh => hk hh.symm
      cases hfind : List.find? (fun p => p.1 == k') l <;>
        simp [hfind, List.find?, h3, hk]

theorem storeFind_storeSet (s : Store) (i j : Iid) (st : ItemState) :
    storeFind (storeSet s i st) j = if j = i then some st else storeFind s j := by
  simpa [storeFind, storeSet] using assocFind_set s i j st

theorem mapGet_mapSet {α : Type} (l : List (String × α)) (k k' : String) (v : α) :
    mapGet (mapSet l k v) k' = if k' = k then some v else mapGet l k' := by
  simpa [mapGet, mapSet] using assocFind_set l k k' v

/-! ## Grid lemmas -/

/-- The grid allocated by the constructor keeps its dimensions: `h` rows of
`w` cells.  All operations preserve this. -/
abbrev gridShape (g : Grid) (w h : Nat) : Prop :=
  g.length = h ∧ ∀ (y : Nat) (row : List (Option Iid)), g[y]? = some row → row.length = w

theorem gridShape_mkGrid (w h : Nat) :
    gridShape (List.replicate h (List.replicate w (none : Option Iid))) w h := by
  constructor
  · simp
  · intro y row hr
    rw [List.getElem?_replicate] at hr
    split at hr
    · cases hr; simp
    · cases hr

theorem getCellG_mkGrid (w h x y : Nat) :
    getCellG (List.replicate h (List.replicate w (none : Option Iid))) x y = none := by
  unfold getCellG
  rw [List.getElem?_replicate]
  split
  · rw [Option.getD_some, List.getElem?_replicate]
    split <;> simp
  · simp

theorem getCellG_of_shape_oob {g : Grid} {w h : Nat} (hs : gridShape g w h)
    {x y : Nat} (hxy : w ≤ x ∨ h ≤ y) :
    getCellG g x y = none := by
  unfold getCellG
  rcases hxy with hx | hy
  · cases hrow : g[y]? with
    | none => simp
    | some row =>
      have hrl : row.length = w := hs.2 y row hrow
      simp [List.getElem?_eq_none_iff.mpr (by omega : row.length ≤ x)]
  · have : g[y]? = none := List.getElem?_eq_none_iff.mpr (by rw [hs.1]; exact hy)
    simp [this]

theorem gridShape_setCell {g : Grid} {w h : Nat} (hs : gridShape g w h)
    (x y : Nat) (v : Option Iid) :
    gridShape (setCell g x y v) w h := by
  constructor
  · rw [setCell, List.length_set, hs.1]
  · intro y' row hr
    rw [setCell, List.getElem?_set] at hr
    split at hr
    · split at hr
      · cases hr
        cases hgy : g[y]? with
        | none =>
          exact absurd (List.getElem?_eq_none_iff.mp hgy) (by omega)
        | some r0 => simp [hgy, hs.2 y r0 hgy]
      · cases hr
    · exact hs.2 y' row hr

theorem getCellG_setCell {g : Grid} {w h : Nat} (hs : gridShape g w h)
    {x y : Nat} (hx : x < w) (hy : y < h) (v : Option Iid) (x' y' : Nat) :
    getCellG (setCell g x y v) x' y' =
      if x = x' ∧ y = y' then v else getCellG g x' y' := by
  have hylen : y < g.length := by rw [hs.1]; exact hy
  cases hrow : g[y]? with
  | none => exact absurd (List.getElem?_eq_none_iff.mp hrow) (by omega)
  | some row =>
    have hrl : row.length = w := hs.2 y row hrow
    unfold getCellG setCell
    rw [List.getElem?_set]
    by_cases hyy : y = y'
    · subst hyy
      rw [if_pos rfl, if_pos hylen, Option.getD_some, hrow, Option.getD_some,
        List.getElem?_set]
      by_cases hxx : x = x'
      · subst hxx
        rw [if_pos rfl, if_pos (by omega), Option.getD_some, if_pos ⟨rfl, rfl⟩]
      · rw [if_neg hxx, if_neg (by tauto)]
    · rw [if_neg hyy, if_neg (by tauto)]

theorem gridShape_writeRow {g : Grid} {w h : Nat} (hs : gridShape g w h)
    (i : Iid) (x y : Nat) (hy : y < h) :
    ∀ n, gridShape (writeRow g i x y n) w h
  | 0 => hs
  | n + 1 => gridShape_setCell (gridShape_writeRow hs i x y hy n) (x + n) y (some i)

theorem getCellG_writeRow {g : Grid} {w h : Nat} (hs : gridShape g w h)
    (i : Iid) {x y n : Nat} (hy : y < h) (hxn : x + n ≤ w) (x' y' : Nat) :
    getCellG (writeRow g i x y n) x' y' =
      if y' = y ∧ x ≤ x' ∧ x' < x + n then some i else getCellG g x' y' := by
  induction n with
  | zero =>
    rw [writeRow, if_neg (by omega)]
  | succ n ih =>
    rw [writeRow,
      getCellG_setCell (gridShape_writeRow hs i x y hy n) (by omega) hy (some i) x' y',
      ih (by omega)]
    by_cases h1 : x + n = x' ∧ y = y'
    · rw [if_pos h1, if_pos (by omega)]
    · rw [if_neg h1]
      by_cases h2 : y' = y ∧ x ≤ x' ∧ x' < x + n
      · rw [if_pos h2, if_pos (by omega)]
      · rw [if_neg h2, if_neg (by omega)]

theorem gridShape_writeRect {g : Grid} {w h : Nat} (hs : gridShape g w h)
    (i : Iid) (x y w0 : Nat) :
    ∀ n, y + n ≤ h → gridShape (writeRect g i x y w0 n) w h
  | 0, _ => hs
  | n + 1, hn =>
    gridShape_writeRow (gridShape_writeRect hs i x y w0 n (by omega)) i x (y + n)
      (by omega) w0

theorem getCellG_writeRect {g : Grid} {w h : Nat} (hs : gridShape g w h)
    (i : Iid) {x y w0 n : Nat} (hw : x + w0 ≤ w) (hn : y + n ≤ h) (x' y' : Nat) :
    getCellG (writeRect g i x y w0 n) x' y' =
      if x ≤ x' ∧ x' < x + w0 ∧ y ≤ y' ∧ y' < y + n then some i
      else getCellG g x' y' := by
  induction n with
  | zero =>
    rw [writeRect, if_neg (by omega)]
  | succ n ih =>
    rw [writeRect,
      getCellG_writeRow (gridShape_writeRect hs i x y w0 n (by omega)) i (by omega) hw x' y',
      ih (by omega)]
    by_cases h1 : y' = y + n ∧ x ≤ x' ∧ x' < x + w0
    · rw [if_pos h1, if_pos (by omega)]
    · rw [if_neg h1]
      by_cases h2 : x ≤ x' ∧ x' < x + w0 ∧ y ≤ y' ∧ y' < y + n
      · rw [if_pos h2, if_pos (by omega)]
      · rw [if_neg h2, if_neg (by omega)]

theorem gridShape_clearG {g : Grid} {w h : Nat} (hs : gridShape g w h) (i : Iid) :
    gridShape (clearG g i) w h := by
  constructor
  · simp [clearG, hs.1]
  · intro y row hr
    rw [clearG, List.getElem?_map] at hr
    cases hgy : g[y]? with
    | none => rw [hgy] at hr; cases hr
    | some r0 =>
      rw [hgy] at hr
      cases hr
      simp [hs.2 y r0 hgy]

theorem getCellG_clearG (g : Grid) (i : Iid) (x y : Nat) :
    getCellG (clearG g i) x y =
      if getCellG g x y = some i then none else getCellG g x y := by
  unfold getCellG clearG
  rw [List.getElem?_map]
  cases hgy : g[y]? with
  | none => simp
  | some row =>
    simp only [Option.map_some', Option.getD_some]
    rw [List.getElem?_map]
    cases hrx : row[x]? with
    | none => simp
    | some c => rfl

/-! ## Characterising the placement checks -/

theorem canPlaceAt_eq_true_iff (inv : Inventory) (i : Iid) (st : ItemState) (x y : Int) :
    inv.canPlaceAt i st x y = true ↔
      0 ≤ x ∧ 0 ≤ y ∧ x + st.config.width ≤ (inv.width : Int) ∧
      y + st.config.height ≤ (inv.height : Int) ∧
      ∀ dx dy : Nat, dx < st.config.width → dy < st.config.height →
        getCellG inv.grid (x.toNat + dx) (y.toNat + dy) = none ∨
        getCellG inv.grid (x.toNat + dx) (y.toNat + dy) = some i := by
  unfold Inventory.canPlaceAt
  split
  case isTrue hb =>
    constructor
    · intro hh; cases hh
    · rintro ⟨h1, h2, h3, h4, -⟩
      exact absurd h1 (by omega)
  case isFalse hb =>
    simp only [List.all_eq_true, List.mem_range]
    constructor
    · intro hall
      refine ⟨by omega, by omega, by omega, by omega, ?_⟩
      intro dx dy hdx hdy
      have hcell := hall dy hdy dx hdx
      cases hc : getCellG inv.grid (x.toNat + dx) (y.toNat + dy) with
      | none => exact Or.inl rfl
      | some j =>
        rw [hc] at hcell
        exact Or.inr (by rw [eq_of_beq hcell])
    · rintro ⟨-, -, -, -, hcells⟩ dy hdy dx hdx
      rcases hcells dx dy hdx hdy with hc | hc <;> rw [hc] <;> simp

theorem isAreaEmpty_eq_true_iff (inv : Inventory) (x y w h : Nat) :
    inv.isAreaEmpty x y w h = true ↔
      ∀ dx dy : Nat, dx < w → dy < h → getCellG inv.grid (x + dx) (y + dy) = none := by
  unfold Inventory.isAreaEmpty
  simp only [List.all_eq_true, List.mem_range, Option.isNone_iff_eq_none]
  exact ⟨fun h2 dx dy hdx hdy => h2 dy hdy dx hdx, fun h2 dy hdy dx hdx => h2 dx dy hdx hdy⟩

theorem canPlaceAt_of_empty (inv : Inventory) (i : Iid) (st : ItemState) (x y : Nat)
    (hw : x + st.config.width ≤ inv.width) (hh : y + st.config.height ≤ inv.height)
    (hE : inv.isAreaEmpty x y st.config.width st.config.height = true) :
    inv.canPlaceAt i st (x : Int) (y : Int) = true := by
  rw [canPlaceAt_eq_true_iff]
  refine ⟨by omega, by omega, by omega, by omega, ?_⟩
  intro dx dy hdx hdy
  left
  have hc := (isAreaEmpty_eq_true_iff inv x y st.config.width st.config.height).mp hE dx dy hdx hdy
  simpa using hc

/-! ## Characterising the row-major scan of findEmptySpace -/

theorem scanX_eq_some_iff (inv : Inventory) (w h y : Nat) :
    ∀ (n x0 x : Nat), scanX inv w h y x0 n = some x ↔
      (x0 ≤ x ∧ x < x0 + n ∧ inv.isAreaEmpty x y w h = true ∧
        ∀ x2, x0 ≤ x2 → x2 < x → inv.isAreaEmpty x2 y w h = false) := by
  intro n
  induction n with
  | zero =>
    intro x0 x
    constructor
    · intro hh; cases hh
    · rintro ⟨h1, h2, -, -⟩
      exact absurd h1 (by omega)
  | succ n ih =>
    intro x0 x
    rw [scanX]
    by_cases hE : inv.isAreaEmpty x0 y w h = true
    · rw [if_pos hE]
      constructor
      · intro hh
        cases hh
        exact ⟨le_refl x0, by omega, hE, fun x2 h1 h2 => absurd h1 (by omega)⟩
      · rintro ⟨h1, h2, h3, hmin⟩
        rcases eq_or_ne x x0 with hx | hx
        · rw [hx]
        · exact absurd (hmin x0 (le_refl x0) (by omega)) (by rw [hE]; simp)
    · rw [if_neg hE]
      rw [ih (x0 + 1) x]
      have hEf : inv.isAreaEmpty x0 y w h = false := by
        cases hq : inv.isAreaEmpty x0 y w h
        · rfl
        · exact absurd hq hE
      constructor
      · rintro ⟨h1, h2, h3, hmin⟩
        refine ⟨by omega, by omega, h3, ?_⟩
        intro x2 hl hr
        rcases eq_or_ne x2 x0 with hx2 | hx2
        · rw [hx2]; exact hEf
        · exact hmin x2 (by omega) hr
      · rintro ⟨h1, h2, h3, hmin⟩
        have hxx0 : x ≠ x0 := by
          intro hq
          rw [← hq] at hEf
          rw [h3] at hEf
          cases hEf
        exact ⟨by omega, by omega, h3, fun x2 hl hr => hmin x2 (by omega) hr⟩

theorem scanX_eq_none_iff (inv : Inventory) (w h y : Nat) :
    ∀ (n x0 : Nat), scanX inv w h y x0 n = none ↔
      ∀ x, x0 ≤ x → x < x0 + n → inv.isAreaEmpty x y w h = false := by
  intro n
  induction n with
  | zero =>
    intro x0
    constructor
    · intro _ x h1 h2
      exact absurd h1 (by omega)
    · intro _; rfl
  | succ n ih =>
    intro x0
    rw [scanX]
    by_cases hE : inv.isAreaEmpty x0 y w h = true
    · rw [if_pos hE]
      constructor
      · intro hh; cases hh
      · intro hall
        rw [hall x0 (le_refl x0) (by omega)] at hE
        cases hE
    · rw [if_neg hE]
      rw [ih (x0 + 1)]
      have hEf : inv.isAreaEmpty x0 y w h = false := by
        cases hq : inv.isAreaEmpty x0 y w h
        · rfl
        · exact absurd hq hE
      constructor
      · intro hall x h1 h2
        rcases eq_or_ne x x0 with hx | hx
        · rw [hx]; exact hEf
        · exact hall x (by omega) (by omega)
      · intro hall x h1 h2
        exact hall x (by omega) (by omega)

theorem scanY_eq_some_iff (inv : Inventory) (w h : Nat) :
    ∀ (n y0 x y : Nat), scanY inv w h y0 n = some (x, y) ↔
      (y0 ≤ y ∧ y < y0 + n ∧
        scanX inv w h y 0 (inv.width - w + 1) = some x ∧
        ∀ y2, y0 ≤ y2 → y2 < y → scanX inv w h y2 0 (inv.width - w + 1) = none) := by
  intro n
  induction n with
  | zero =>
    intro y0 x y
    constructor
    · intro hh; cases hh
    · rintro ⟨h1, h2, -, -⟩
      exact absurd h1 (by omega)
  | succ n ih =>
    intro y0 x y
    rw [scanY]
    cases hrow : scanX inv w h y0 0 (inv.width - w + 1) with
    | some x1 =>
      constructor
      · intro hh
        cases hh
        exact ⟨le_refl y0, by omega, hrow, fun y2 h1 h2 => absurd h1 (by omega)⟩
      · rintro ⟨h1, h2, h3, hmin⟩
        rcases eq_or_ne y y0 with hy | hy
        · rw [hy] at h3
          rw [h3] at hrow
          cases hrow
          rw [hy]
        · rw [hmin y0 (le_refl y0) (by omega)] at hrow
          cases hrow
    | none =>
      rw [ih (y0 + 1) x y]
      constructor
      · rintro ⟨h1, h2, h3, hmin⟩
        refine ⟨by omega, by omega, h3, ?_⟩
        intro y2 hl hr
        rcases eq_or_ne y2 y0 with hy2 | hy2
        · rw [hy2]; exact hrow
        · exact hmin y2 (by omega) hr
      · rintro ⟨h1, h2, h3, hmin⟩
        have hyy0 : y ≠ y0 := by
          intro hq
          rw [← hq] at hrow
          rw [h3] at hrow
          cases hrow
        exact ⟨by omega, by omega, h3, fun y2 hl hr => hmin y2 (by omega) hr⟩

theorem scanY_eq_none_iff (inv : Inventory) (w h : Nat) :
    ∀ (n y0 : Nat), scanY inv w h y0 n = none ↔
      ∀ y, y0 ≤ y → y < y0 + n → scanX inv w h y 0 (inv.width - w + 1) = none := by
  intro n
  induction n with
  | zero =>
    intro y0
    constructor
    · intro _ y h1 h2
      exact absurd h1 (by omega)
    · intro _; rfl
  | succ n ih =>
    intro y0
    rw [scanY]
    cases hrow : scanX inv w h y0 0 (inv.width - w + 1) with
    | some x1 =>
      constructor
      · intro hh; cases hh
      · intro hall
        rw [hall y0 (le_refl y0) (by omega)] at hrow
        cases hrow
    | none =>
      rw [ih (y0 + 1)]
      constructor
      · intro hall y h1 h2
        rcases eq_or_ne y y0 with hy | hy
        · rw [hy]; exact hrow
        · exact hall y (by omega) (by omega)
      · intro hall y h1 h2
        exact hall y (by omega) (by omega)

theorem findEmptySpace_eq_some_iff (inv : Inventory) (w h x y : Nat) :
    inv.findEmptySpace w h = some (x, y) ↔
      (x + w ≤ inv.width ∧ y + h ≤ inv.height ∧ inv.isAreaEmpty x y w h = true ∧
        ∀ x' y' : Nat, x' + w ≤ inv.width → y' + h ≤ inv.height →
          (y' < y ∨ (y' = y ∧ x' < x)) → inv.isAreaEmpty x' y' w h = false) := by
  unfold Inventory.findEmptySpace
  by_cases hwh : w ≤ inv.width ∧ h ≤ inv.height
  · rw [if_pos hwh]
    rw [scanY_eq_some_iff inv w h (inv.height - h + 1) 0 x y]
    constructor
    · rintro ⟨-, hy2, hx3, hymin⟩
      rw [scanX_eq_some_iff] at hx3
      obtain ⟨-, hx2, hE, hxmin⟩ := hx3
      refine ⟨by omega, by omega, hE, ?_⟩
      intro x' y' hxw hyh hlt
      rcases hlt with hy' | ⟨hyeq, hx'⟩
      · have hn := hymin y' (by omega) hy'
        rw [scanX_eq_none_iff] at hn
        exact hn x' (by omega) (by omega)
      · subst hyeq
        exact hxmin x' (by omega) hx'
    · rintro ⟨hxw, hyh, hE, hmin⟩
      refine ⟨by omega, by omega, ?_, ?_⟩
      · rw [scanX_eq_some_iff]
        exact ⟨by omega, by omega, hE,
          fun x2 _ hx2 => hmin x2 y (by omega) (by omega) (Or.inr ⟨rfl, hx2⟩)⟩
      · intro y2 _ hy2
        rw [scanX_eq_none_iff]
        intro x2 _ hx2
        exact hmin x2 y2 (by omega) (by omega) (Or.inl hy2)
  · rw [if_neg hwh]
    constructor
    · intro hh; cases hh
    · rintro ⟨hxw, hyh, -, -⟩
      exact absurd ⟨by omega, by omega⟩ hwh

theorem findEmptySpace_eq_none_iff (inv : Inventory) (w h : Nat) :
    inv.findEmptySpace w h = none ↔
      ∀ x y : Nat, x + w ≤ inv.width → y + h ≤ inv.height →
        inv.isAreaEmpty x y w h = false := by
  unfold Inventory.findEmptySpace
  by_cases hwh : w ≤ inv.width ∧ h ≤ inv.height
  · rw [if_pos hwh, scanY_eq_none_iff]
    constructor
    · intro hall x y hxw hyh
      have hn := hall y (by omega) (by omega)
      rw [scanX_eq_none_iff] at hn
      exact hn x (by omega) (by omega)
    · intro hall y _ hy
      rw [scanX_eq_none_iff]
      intro x _ hx
      exact hall x y (by omega) (by omega)
  · rw [if_neg hwh]
    constructor
    · intro _ x y hxw hyh
      exact absurd ⟨by omega, by omega⟩ hwh
    · intro _; rfl

/-! ## Tracked-set helpers -/

theorem mem_addIid {l : List Iid} {i j : Iid} : j ∈ addIid l i ↔ j ∈ l ∨ j = i := by
  unfold addIid
  split
  case isTrue hc =>
    have hi : i ∈ l := List.elem_iff.mp hc
    constructor
    · exact Or.inl
    · rintro (hj | rfl)
      · exact hj
      · exact hi
  case isFalse hc => simp

theorem nodup_addIid {l : List Iid} (hl : l.Nodup) (i : Iid) : (addIid l i).Nodup := by
  unfold addIid
  split
  case isTrue hc => exact hl
  case isFalse hc =>
    have hni : i ∉ l := fun hm => hc (List.elem_iff.mpr hm)
    simp [List.nodup_append, hl, hni]

theorem mem_filterNe {l : List Iid} {i j : Iid} :
    j ∈ l.filter (fun k => k != i) ↔ j ∈ l ∧ j ≠ i := by
  simp [List.mem_filter]

/-! ## Unfolding the inventory operations -/

theorem placeAt_dangling {inv : Inventory} {s : Store} {i : Iid} {x y : Int}
    (hf : storeFind s i = none) : inv.placeAt s i x y = (inv, s, false) := by
  unfold Inventory.placeAt
  rw [hf]

theorem placeAt_not_can {inv : Inventory} {s : Store} {i : Iid} {st : ItemState} {x y : Int}
    (hf : storeFind s i = some st) (hc : ¬ inv.canPlaceAt i st x y = true) :
    inv.placeAt s i x y = (inv, s, false) := by
  unfold Inventory.placeAt
  rw [hf]
  simp only [if_neg hc]

theorem placeAt_can {inv : Inventory} {s : Store} {i : Iid} {st : ItemState} {x y : Int}
    (hf : storeFind s i = some st) (hc : inv.canPlaceAt i st x y = true) :
    inv.placeAt s i x y =
      (⟨inv.width, inv.height,
        writeRect (if inv.items.contains i then clearG inv.grid i else inv.grid) i
          x.toNat y.toNat st.config.width st.config.height,
        addIid inv.items i⟩,
       storeSet s i { st with gridX := x, gridY := y }, true) := by
  unfold Inventory.placeAt
  rw [hf]
  simp only [if_pos hc, Inventory.clearItemFromGrid, apply_ite Inventory.grid,
    apply_ite Inventory.items, apply_ite Inventory.width,
    apply_ite Inventory.height, ite_self]

theorem removeItem_not_tracked {inv : Inventory} {s : Store} {i : Iid}
    (h : ¬ inv.items.contains i = true) : inv.removeItem s i = (inv, s, false) := by
  unfold Inventory.removeItem
  rw [if_neg h]

theorem removeItem_tracked {inv : Inventory} {s : Store} {i : Iid} {st : ItemState}
    (h : inv.items.contains i = true) (hf : storeFind s i = some st) :
    inv.removeItem s i =
      (⟨inv.width, inv.height, clearG inv.grid i, inv.items.filter (fun j => j != i)⟩,
       storeSet s i { st with gridX := -1, gridY := -1 }, true) := by
  unfold Inventory.removeItem
  rw [if_pos h, hf]
  rfl

/-! ## What the stack-merge loop touches: only quantities -/

/-- The position and configuration carried by a store entry.  The stack-merge
loop of `addItem` changes only quantities, never positions or configs. -/
def posCfg : Option ItemState → Option (Int × Int × ItemConfig)
  | none => none
  | some st => some (st.gridX, st.gridY, st.config)

theorem posCfg_storeSet_of {s : Store} {i : Iid} {st : ItemState}
    (h : posCfg (storeFind s i) = posCfg (some st)) (j : Iid) :
    posCfg (storeFind (storeSet s i st) j) = posCfg (storeFind s j) := by
  rw [storeFind_storeSet]
  by_cases hj : j = i
  · rw [if_pos hj, hj, ← h]
  · rw [if_neg hj]

theorem stackLoop_posCfg (i : Iid) :
    ∀ (l : List Iid) (s : Store) (j : Iid),
      posCfg (storeFind (stackLoop s i l).1 j) = posCfg (storeFind s j) := by
  intro l
  induction l with
  | nil => intro s j; rfl
  | cons k rest ih =>
    intro s j
    rw [stackLoop]
    cases hk : storeFind s k with
    | none => rfl
    | some stJ =>
      cases hi : storeFind s i with
      | none => rfl
      | some stI =>
        dsimp only []
        by_cases hcs : (stJ.canStackWith stI && stJ.canAddMore) = true
        · rw [if_pos hcs]
          have h1 : ∀ j2, posCfg (storeFind
              (storeSet s k (stJ.addQuantity stI.quantity).1) j2) =
              posCfg (storeFind s j2) :=
            posCfg_storeSet_of (by rw [hk]; rfl)
          cases hI1 : storeFind (storeSet s k (stJ.addQuantity stI.quantity).1) i with
          | none => simpa using (h1 j)
          | some stI1 =>
            have h2 : ∀ j2, posCfg (storeFind
                (storeSet (storeSet s k (stJ.addQuantity stI.quantity).1) i
                  ((stI1.removeQuantity (stJ.addQuantity stI.quantity).2).1)) j2) =
                posCfg (storeFind (storeSet s k (stJ.addQuantity stI.quantity).1) j2) :=
              posCfg_storeSet_of (by rw [hI1]; rfl)
            by_cases hz : ((stI1.removeQuantity (stJ.addQuantity stI.quantity).2).1).quantity = 0
            · simp only [hz, if_pos]
              rw [h2 j, h1 j]
            · simp only [hz, if_neg, ite_false]
              rw [ih _ j, h2 j, h1 j]
        · rw [if_neg hcs]
          exact ih s j

theorem stackLoop_find_other (i : Iid) :
    ∀ (l : List Iid) (s : Store) (j : Iid), j ∉ l → j ≠ i →
      storeFind (stackLoop s i l).1 j = storeFind s j := by
  intro l
  induction l with
  | nil => intro s j _ _; rfl
  | cons k rest ih =>
    intro s j hjl hji
    have hjk : j ≠ k := fun hh => hjl (hh ▸ List.mem_cons_self k rest)
    have hjrest : j ∉ rest := fun hh => hjl (List.mem_cons_of_mem k hh)
    rw [stackLoop]
    cases hk : storeFind s k with
    | none => rfl
    | some stJ =>
      cases hi : storeFind s i with
      | none => rfl
      | some stI =>
        dsimp only []
        by_cases hcs : (stJ.canStackWith stI && stJ.canAddMore) = true
        · rw [if_pos hcs]
          have h1 : storeFind (storeSet s k (stJ.addQuantity stI.quantity).1) j =
              storeFind s j := by
            rw [storeFind_storeSet, if_neg hjk]
          cases hI1 : storeFind (storeSet s k (stJ.addQuantity stI.quantity).1) i with
          | none => simpa using h1
          | some stI1 =>
            have h2 : storeFind
                (storeSet (storeSet s k (stJ.addQuantity stI.quantity).1) i
                  ((stI1.removeQuantity (stJ.addQuantity stI.quantity).2).1)) j =
                storeFind (storeSet s k (stJ.addQuantity stI.quantity).1) j := by
              rw [storeFind_storeSet, if_neg hji]
            by_cases hz : ((stI1.removeQuantity (stJ.addQuantity stI.quantity).2).1).quantity = 0
            · simp only [hz, if_pos]
              rw [h2, h1]
            · simp only [hz, if_neg, ite_false]
              rw [ih _ j hjrest hji, h2, h1]
        · rw [if_neg hcs]
          exact ih s j hjrest hji

/-! ## Unfolding addItem -/

theorem addItemPlace_dangling {inv : Inventory} {s : Store} {i : Iid}
    (hf : storeFind s i = none) : inv.addItemPlace s i = (inv, s, false) := by
  unfold Inventory.addItemPlace
  rw [hf]

theorem addItemPlace_qty_nonpos {inv : Inventory} {s : Store} {i : Iid} {st : ItemState}
    (hf : storeFind s i = some st) (hq : ¬ 0 < st.quantity) :
    inv.addItemPlace s i = (inv, s, true) := by
  unfold Inventory.addItemPlace
  rw [hf]
  simp only [if_neg hq]

theorem addItemPlace_no_space {inv : Inventory} {s : Store} {i : Iid} {st : ItemState}
    (hf : storeFind s i = some st) (hq : 0 < st.quantity)
    (hfe : inv.findEmptySpace st.config.width st.config.height = none) :
    inv.addItemPlace s i = (inv, s, false) := by
  unfold Inventory.addItemPlace
  rw [hf]
  simp only [if_pos hq, hfe]

theorem addItemPlace_place {inv : Inventory} {s : Store} {i : Iid} {st : ItemState}
    {pos : Nat × Nat} (hf : storeFind s i = some st) (hq : 0 < st.quantity)
    (hfe : inv.findEmptySpace st.config.width st.config.height = some pos) :
    inv.addItemPlace s i = inv.placeAt s i pos.1 pos.2 := by
  unfold Inventory.addItemPlace
  rw [hf]
  simp only [if_pos hq, hfe]

theorem addItem_dangling {inv : Inventory} {s : Store} {i : Iid}
    (hf : storeFind s i = none) : inv.addItem s i = (inv, s, false) := by
  unfold Inventory.addItem
  rw [hf]

theorem addItem_nonstackable {inv : Inventory} {s : Store} {i : Iid} {st : ItemState}
    (hf : storeFind s i = some st) (hst : ¬ st.isStackable = true) :
    inv.addItem s i = inv.addItemPlace s i := by
  unfold Inventory.addItem
  rw [hf]
  simp only [if_neg hst]

theorem addItem_stack_done {inv : Inventory} {s s1 : Store} {i : Iid} {st : ItemState}
    (hf : storeFind s i = some st) (hst : st.isStackable = true)
    (hsl : stackLoop s i inv.items = (s1, true)) :
    inv.addItem s i = (inv, s1, true) := by
  unfold Inventory.addItem
  rw [hf]
  simp only [if_pos hst, hsl]

theorem addItem_stack_cont {inv : Inventory} {s s1 : Store} {i : Iid} {st : ItemState}
    (hf : storeFind s i = some st) (hst : st.isStackable = true)
    (hsl : stackLoop s i inv.items = (s1, false)) :
    inv.addItem s i = inv.addItemPlace s1 i := by
  unfold Inventory.addItem
  rw [hf]
  simp only [if_pos hst, hsl]

theorem placeAt_find_other {inv : Inventory} {s : Store} {i : Iid} {x y : Int}
    (j : Iid) (hj : j ≠ i) :
    storeFind (inv.placeAt s i x y).2.1 j = storeFind s j := by
  cases hf : storeFind s i with
  | none => rw [placeAt_dangling hf]
  | some st =>
    by_cases hc : inv.canPlaceAt i st x y = true
    · rw [placeAt_can hf hc]
      exact (storeFind_storeSet s i j _).trans (if_neg hj)
    · rw [placeAt_not_can hf hc]

theorem addItemPlace_find_other {inv : Inventory} {s : Store} {i : Iid}
    (j : Iid) (hj : j ≠ i) :
    storeFind (inv.addItemPlace s i).2.1 j = storeFind s j := by
  cases hf : storeFind s i with
  | none => rw [addItemPlace_dangling hf]
  | some st =>
    by_cases hq : 0 < st.quantity
    · cases hfe : inv.findEmptySpace st.config.width st.config.height with
      | none => rw [addItemPlace_no_space hf hq hfe]
      | some pos =>
        rw [addItemPlace_place hf hq hfe]
        exact placeAt_find_other j hj
    · rw [addItemPlace_qty_nonpos hf hq]

theorem addItem_find_other {inv : Inventory} {s : Store} {i : Iid}
    (j : Iid) (hjl : j ∉ inv.items) (hj : j ≠ i) :
    storeFind (inv.addItem s i).2.1 j = storeFind s j := by
  cases hf : storeFind s i with
  | none => rw [addItem_dangling hf]
  | some st =>
    by_cases hst : st.isStackable = true
    · cases hsl : stackLoop s i inv.items with
      | mk s1 b =>
        have hs1 : storeFind s1 j = storeFind s j := by
          have := stackLoop_find_other i inv.items s j hjl hj
          rw [hsl] at this
          exact this
        cases b
        · rw [addItem_stack_cont hf hst hsl]
          exact (addItemPlace_find_other j hj).trans hs1
        · rw [addItem_stack_done hf hst hsl]
          exact hs1
    · rw [addItem_nonstackable hf hst]
      exact addItemPlace_find_other j hj

theorem addItemPlace_false {inv : Inventory} {s : Store} {i : Iid}
    (hfail : (inv.addItemPlace s i).2.2 = false) :
    (inv.addItemPlace s i).1 = inv ∧ (inv.addItemPlace s i).2.1 = s := by
  cases hf : storeFind s i with
  | none => rw [addItemPlace_dangling hf]; exact ⟨rfl, rfl⟩
  | some st =>
    by_cases hq : 0 < st.quantity
    · cases hfe : inv.findEmptySpace st.config.width st.config.height with
      | none => rw [addItemPlace_no_space hf hq hfe]; exact ⟨rfl, rfl⟩
      | some pos =>
        rw [addItemPlace_place hf hq hfe] at hfail ⊢
        by_cases hc : inv.canPlaceAt i st pos.1 pos.2 = true
        · rw [placeAt_can hf hc] at hfail
          cases hfail
        · rw [placeAt_not_can hf hc]
          exact ⟨rfl, rfl⟩
    · rw [addItemPlace_qty_nonpos hf hq] at hfail
      cases hfail

theorem addItem_false {inv : Inventory} {s : Store} {i : Iid}
    (hfail : (inv.addItem s i).2.2 = false) :
    (inv.addItem s i).1 = inv ∧
    ∀ j, posCfg (storeFind (inv.addItem s i).2.1 j) = posCfg (storeFind s j) := by
  cases hf : storeFind s i with
  | none => rw [addItem_dangling hf]; exact ⟨rfl, fun j => rfl⟩
  | some st =>
    by_cases hst : st.isStackable = true
    · cases hsl : stackLoop s i inv.items with
      | mk s1 b =>
        have hpos : ∀ j, posCfg (storeFind s1 j) = posCfg (storeFind s j) := by
          intro j
          have := stackLoop_posCfg i inv.items s j
          rw [hsl] at this
          exact this
        cases b
        · rw [addItem_stack_cont hf hst hsl] at hfail ⊢
          obtain ⟨h1, h2⟩ := addItemPlace_false hfail
          exact ⟨h1, fun j => by rw [h2]; exact hpos j⟩
        · rw [addItem_stack_done hf hst hsl] at hfail
          cases hfail
    · rw [addItem_nonstackable hf hst] at hfail ⊢
      obtain ⟨h1, h2⟩ := addItemPlace_false hfail
      exact ⟨h1, fun j => by rw [h2]⟩

/-! ## The structural invariant of an Inventory (claim C3) -/

/-- Cell `(x, y)` lies in the footprint rectangle recorded in an item state. -/
def inRect (st : ItemState) (x y : Nat) : Prop :=
  st.gridX ≤ (x : Int) ∧ (x : Int) < st.gridX + st.config.width ∧
  st.gridY ≤ (y : Int) ∧ (y : Int) < st.gridY + st.config.height

/-- Well-formedness of an inventory together with the item heap: the grid has
its constructed shape, the tracked set has no duplicates, every occupied
cell's occupant is tracked, and every tracked item is stored, lies in bounds,
and occupies exactly its recorded rectangle. -/
def WF (inv : Inventory) (s : Store) : Prop :=
  gridShape inv.grid inv.width inv.height ∧
  inv.items.Nodup ∧
  (∀ x y i, getCellG inv.grid x y = some i → i ∈ inv.items) ∧
  (∀ i, i ∈ inv.items → ∃ st, storeFind s i = some st ∧
    0 ≤ st.gridX ∧ 0 ≤ st.gridY ∧
    st.gridX + st.config.width ≤ (inv.width : Int) ∧
    st.gridY + st.config.height ≤ (inv.height : Int) ∧
    ∀ x y : Nat, (getCellG inv.grid x y = some i ↔ inRect st x y))

theorem WF_mkInventory (w h : Nat) (s : Store) : WF (mkInventory w h) s := by
  refine ⟨gridShape_mkGrid w h, List.nodup_nil, ?_, ?_⟩
  · intro x y i hc
    rw [show (mkInventory w h).grid = List.replicate h (List.replicate w none) from rfl,
      getCellG_mkGrid] at hc
    cases hc
  · intro i hi
    cases hi

theorem WF_of_posCfg {inv : Inventory} {s s' : Store} (hwf : WF inv s)
    (hp : ∀ j, posCfg (storeFind s' j) = posCfg (storeFind s j)) : WF inv s' := by
  refine ⟨hwf.1, hwf.2.1, hwf.2.2.1, ?_⟩
  intro i hi
  obtain ⟨st, hfind, h1, h2, h3, h4, hiff⟩ := hwf.2.2.2 i hi
  have hpi := hp i
  rw [hfind] at hpi
  cases hf' : storeFind s' i with
  | none => rw [hf'] at hpi; cases hpi
  | some st' =>
    rw [hf'] at hpi
    simp only [posCfg, Option.some.injEq, Prod.mk.injEq] at hpi
    obtain ⟨hx, hy, hcfg⟩ := hpi
    refine ⟨st', rfl, by rw [hx]; exact h1, by rw [hy]; exact h2,
      by rw [hx, hcfg]; exact h3, by rw [hy, hcfg]; exact h4, ?_⟩
    intro x y
    rw [hiff x y]
    unfold inRect
    rw [hx, hy, hcfg]

theorem WF_placeAt {inv : Inventory} {s : Store} (hwf : WF inv s) (i : Iid) (x y : Int) :
    WF (inv.placeAt s i x y).1 (inv.placeAt s i x y).2.1 := by
  cases hf : storeFind s i with
  | none => rw [placeAt_dangling hf]; exact hwf
  | some st =>
    by_cases hc : inv.canPlaceAt i st x y = true
    case neg => rw [placeAt_not_can hf hc]; exact hwf
    case pos =>
      rw [placeAt_can hf hc]
      rw [canPlaceAt_eq_true_iff] at hc
      obtain ⟨hx0, hy0, hxw, hyh, hcells⟩ := hc
      have hxx : ((x.toNat : Int)) = x := Int.toNat_of_nonneg hx0
      have hyy : ((y.toNat : Int)) = y := Int.toNat_of_nonneg hy0
      have hxwN : x.toNat + st.config.width ≤ inv.width := by omega
      have hyhN : y.toNat + st.config.height ≤ inv.height := by omega
      obtain ⟨g1, hg1eq, hs1, hg1i, hg1ne⟩ :
          ∃ g1, (if inv.items.contains i then clearG inv.grid i else inv.grid) = g1 ∧
            gridShape g1 inv.width inv.height ∧
            (∀ x' y', getCellG g1 x' y' ≠ some i) ∧
            (∀ x' y' j, j ≠ i →
              (getCellG g1 x' y' = some j ↔ getCellG inv.grid x' y' = some j)) := by
        by_cases hcont : inv.items.contains i = true
        · refine ⟨clearG inv.grid i, by rw [if_pos hcont], gridShape_clearG hwf.1 i, ?_, ?_⟩
          · intro x' y'
            rw [getCellG_clearG]
            split
            · exact fun hh => by cases hh
            · assumption
          · intro x' y' j hj
            rw [getCellG_clearG]
            split
            next hold =>
              constructor
              · intro hh; cases hh
              · intro hh
                rw [hold] at hh
                cases hh
                exact absurd rfl hj
            next hold => exact Iff.rfl
        · refine ⟨inv.grid, by rw [if_neg hcont], hwf.1, ?_, fun _ _ _ _ => Iff.rfl⟩
          intro x' y' hcell
          exact hcont (List.elem_iff.mpr (hwf.2.2.1 x' y' i hcell))
      rw [hg1eq]
      have hcells2 : ∀ x' y', getCellG
          (writeRect g1 i x.toNat y.toNat st.config.width st.config.height) x' y' =
          if x.toNat ≤ x' ∧ x' < x.toNat + st.config.width ∧
             y.toNat ≤ y' ∧ y' < y.toNat + st.config.height then some i
          else getCellG g1 x' y' :=
        fun x' y' => getCellG_writeRect hs1 i hxwN hyhN x' y'
      refine ⟨gridShape_writeRect hs1 i x.toNat y.toNat st.config.width
        st.config.height hyhN, nodup_addIid hwf.2.1 i, ?_, ?_⟩
      · intro x' y' j hcell
        rw [hcells2] at hcell
        split at hcell
        · cases hcell
          exact mem_addIid.mpr (Or.inr rfl)
        · rcases eq_or_ne j i with hji | hji
          · exact absurd (hji ▸ hcell) (hg1i x' y')
          · exact mem_addIid.mpr
              (Or.inl (hwf.2.2.1 x' y' j ((hg1ne x' y' j hji).mp hcell)))
      · intro j hj
        rcases eq_or_ne j i with hji | hji
        · subst hji
          refine ⟨{ st with gridX := x, gridY := y },
            by rw [storeFind_storeSet, if_pos rfl], by exact hx0, by exact hy0,
            by exact hxw, by exact hyh, ?_⟩
          intro x' y'
          rw [hcells2]
          unfold inRect
          dsimp only
          split
          next hin =>
            constructor
            · intro _
              exact ⟨by omega, by omega, by omega, by omega⟩
            · intro _; rfl
          next hout =>
            constructor
            · intro hh; exact absurd hh (hg1i x' y')
            · intro hh
              obtain ⟨r1, r2, r3, r4⟩ := hh
              exact absurd (⟨by omega, by omega, by omega, by omega⟩ :
                x.toNat ≤ x' ∧ x' < x.toNat + st.config.width ∧
                y.toNat ≤ y' ∧ y' < y.toNat + st.config.height) hout
        · have hjItems : j ∈ inv.items := by
            rcases mem_addIid.mp hj with hh | hh
            · exact hh
            · exact absurd hh hji
          obtain ⟨stJ, hfJ, b1, b2, b3, b4, hiffJ⟩ := hwf.2.2.2 j hjItems
          refine ⟨stJ, by rw [storeFind_storeSet, if_neg hji]; exact hfJ,
            b1, b2, b3, b4, ?_⟩
          intro x' y'
          rw [hcells2]
          split
          next hin =>
            constructor
            · intro hh; cases hh; exact absurd rfl hji
            · intro hrect
              have hold : getCellG inv.grid x' y' = some j := (hiffJ x' y').mpr hrect
              have hdx : x' - x.toNat < st.config.width := by omega
              have hdy : y' - y.toNat < st.config.height := by omega
              have := hcells (x' - x.toNat) (y' - y.toNat) hdx hdy
              rw [show x.toNat + (x' - x.toNat) = x' by omega,
                show y.toNat + (y' - y.toNat) = y' by omega, hold] at this
              rcases this with hh | hh
              · cases hh
              · cases hh; exact absurd rfl hji
          next hout =>
            rw [hg1ne x' y' j hji]
            exact hiffJ x' y'

theorem removeItem_tracked_dangling {inv : Inventory} {s : Store} {i : Iid}
    (h : inv.items.contains i = true) (hf : storeFind s i = none) :
    inv.removeItem s i =
      (⟨inv.width, inv.height, clearG inv.grid i, inv.items.filter (fun j => j != i)⟩,
       s, true) := by
  unfold Inventory.removeItem
  rw [if_pos h, hf]
  rfl

theorem placeAt_false {inv : Inventory} {s : Store} {i : Iid} {x y : Int}
    (hfail : (inv.placeAt s i x y).2.2 = false) :
    inv.placeAt s i x y = (inv, s, false) := by
  cases hf : storeFind s i with
  | none => exact placeAt_dangling hf
  | some st =>
    by_cases hc : inv.canPlaceAt i st x y = true
    · rw [placeAt_can hf hc] at hfail
      cases hfail
    · exact placeAt_not_can hf hc

/-- The core of `removeItem`'s invariant preservation: clearing an item's
cells and untracking it keeps the inventory well formed, for any store that
agrees with the original on the remaining tracked items. -/
theorem WF_remove_core {inv : Inventory} {s s' : Store} (hwf : WF inv s) (i : Iid)
    (hs' : ∀ j, j ∈ inv.items → j ≠ i → storeFind s' j = storeFind s j) :
    WF ⟨inv.width, inv.height, clearG inv.grid i,
        inv.items.filter (fun j => j != i)⟩ s' := by
  refine ⟨gridShape_clearG hwf.1 i, List.Nodup.filter _ hwf.2.1, ?_, ?_⟩
  · intro x y j hcell
    rw [getCellG_clearG] at hcell
    split at hcell
    · cases hcell
    case isFalse hold =>
      have hji : j ≠ i := fun hh => hold (hh ▸ hcell)
      exact mem_filterNe.mpr ⟨hwf.2.2.1 x y j hcell, hji⟩
  · intro j hj
    obtain ⟨hjItems, hji⟩ := mem_filterNe.mp hj
    obtain ⟨stJ, hfJ, b1, b2, b3, b4, hiffJ⟩ := hwf.2.2.2 j hjItems
    refine ⟨stJ, by rw [hs' j hjItems hji]; exact hfJ, b1, b2, b3, b4, ?_⟩
    intro x y
    rw [getCellG_clearG]
    split
    case isTrue hold =>
      constructor
      · intro hh; cases hh
      · intro hrect
        have := (hiffJ x y).mpr hrect
        rw [hold] at this
        cases this
        exact absurd rfl hji
    case isFalse hold => exact hiffJ x y

theorem WF_removeItem {inv : Inventory} {s : Store} (hwf : WF inv s) (i : Iid) :
    WF (inv.removeItem s i).1 (inv.removeItem s i).2.1 := by
  by_cases hcont : inv.items.contains i = true
  case neg => rw [removeItem_not_tracked hcont]; exact hwf
  case pos =>
    cases hf : storeFind s i with
    | none =>
      rw [removeItem_tracked_dangling hcont hf]
      exact WF_remove_core hwf i (fun j _ _ => rfl)
    | some st =>
      rw [removeItem_tracked hcont hf]
      refine WF_remove_core hwf i ?_
      intro j _ hji
      rw [storeFind_storeSet, if_neg hji]

theorem WF_addItemPlace {inv : Inventory} {s : Store} (hwf : WF inv s) (i : Iid) :
    WF (inv.addItemPlace s i).1 (inv.addItemPlace s i).2.1 := by
  cases hf : storeFind s i with
  | none => rw [addItemPlace_dangling hf]; exact hwf
  | some st =>
    by_cases hq : 0 < st.quantity
    · cases hfe : inv.findEmptySpace st.config.width st.config.height with
      | none => rw [addItemPlace_no_space hf hq hfe]; exact hwf
      | some pos =>
        rw [addItemPlace_place hf hq hfe]
        exact WF_placeAt hwf i pos.1 pos.2
    · rw [addItemPlace_qty_nonpos hf hq]; exact hwf

theorem WF_addItem {inv : Inventory} {s : Store} (hwf : WF inv s) (i : Iid) :
    WF (inv.addItem s i).1 (inv.addItem s i).2.1 := by
  cases hf : storeFind s i with
  | none => rw [addItem_dangling hf]; exact hwf
  | some st =>
    by_cases hst : st.isStackable = true
    · cases hsl : stackLoop s i inv.items with
      | mk s1 b =>
        have hwf1 : WF inv s1 := by
          refine WF_of_posCfg hwf ?_
          intro j
          have := stackLoop_posCfg i inv.items s j
          rw [hsl] at this
          exact this
        cases b
        · rw [addItem_stack_cont hf hst hsl]
          exact WF_addItemPlace hwf1 i
        · rw [addItem_stack_done hf hst hsl]
          exact hwf1
    · rw [addItem_nonstackable hf hst]
      exact WF_addItemPlace hwf i

theorem WF_clearLoop :
    ∀ (l : List Iid) (inv : Inventory) (s : Store), WF inv s →
      WF (clearLoop inv s l).1 (clearLoop inv s l).2 := by
  intro l
  induction l with
  | nil => intro inv s hwf; exact hwf
  | cons j rest ih =>
    intro inv s hwf
    rw [clearLoop]
    exact ih _ _ (WF_removeItem hwf j)

theorem WF_clear {inv : Inventory} {s : Store} (hwf : WF inv s) :
    WF (inv.clear s).1 (inv.clear s).2 :=
  WF_clearLoop inv.items inv s hwf

theorem transferTo_not_tracked {inv tgt : Inventory} {s : Store} {i : Iid}
    {xy? : Option (Int × Int)} (h : ¬ inv.items.contains i = true) :
    inv.transferTo s i tgt xy? = (inv, tgt, s, false) := by
  unfold Inventory.transferTo
  rw [if_neg h]

theorem WF_transferTo_tgt {inv tgt : Inventory} {s : Store} (hwf : WF tgt s)
    (i : Iid) (xy? : Option (Int × Int)) :
    WF (inv.transferTo s i tgt xy?).2.1 (inv.transferTo s i tgt xy?).2.2.1 := by
  by_cases hcont : inv.items.contains i = true
  case neg => rw [transferTo_not_tracked hcont]; exact hwf
  case pos =>
    unfold Inventory.transferTo
    rw [if_pos hcont]
    cases xy? with
    | none =>
      dsimp only
      split
      · exact WF_addItem hwf i
      · exact WF_addItem hwf i
    | some xy =>
      cases xy with
      | mk x y =>
        dsimp only
        split
        · exact WF_placeAt hwf i x y
        · exact WF_placeAt hwf i x y

theorem WF_transferTo_src {inv tgt : Inventory} {s : Store} (hwf : WF inv s)
    (i : Iid) (xy? : Option (Int × Int))
    (hOwn : ∀ j, j ∈ inv.items → j ∈ tgt.items → j = i) :
    WF (inv.transferTo s i tgt xy?).1 (inv.transferTo s i tgt xy?).2.2.1 := by
  by_cases hcont : inv.items.contains i = true
  case neg => rw [transferTo_not_tracked hcont]; exact hwf
  case pos =>
    unfold Inventory.transferTo
    rw [if_pos hcont]
    cases xy? with
    | none =>
      dsimp only
      cases hb : (tgt.addItem s i).2.2
      · simp only [hb, Bool.false_eq_true, if_false, ite_false]
        exact WF_of_posCfg hwf (addItem_false hb).2
      · simp only [hb, if_true, ite_true]
        refine WF_remove_core hwf i ?_
        intro j hjItems hji
        exact addItem_find_other j (fun hjt => hji (hOwn j hjItems hjt)) hji
    | some xy =>
      cases xy with
      | mk x y =>
        dsimp only
        cases hb : (tgt.placeAt s i x y).2.2
        · rw [if_neg (by simp)]
          rw [placeAt_false hb]
          exact hwf
        · simp only [hb, if_true, ite_true]
          refine WF_remove_core hwf i ?_
          intro j _ hji
          exact placeAt_find_other j hji

theorem WF_of_frame {inv : Inventory} {s s' : Store} (hwf : WF inv s)
    (hframe : ∀ j, j ∈ inv.items → storeFind s' j = storeFind s j) : WF inv s' := by
  refine ⟨hwf.1, hwf.2.1, hwf.2.2.1, ?_⟩
  intro i hi
  obtain ⟨st, hfind, h1, h2, h3, h4, hiff⟩ := hwf.2.2.2 i hi
  exact ⟨st, by rw [hframe i hi]; exact hfind, h1, h2, h3, h4, hiff⟩

/-- One mutation of a fixed inventory, as allowed by claim C3: the five
public operations, the two sides of a transfer (the source-side transfer
carries the single-owner hypothesis of the claim: no item other than the
transferred one is tracked by both inventories), and an environment step in
which other inventories may touch the store anywhere except the entries of
items tracked here (again the single-owner discipline). -/
inductive Step : Inventory × Store → Inventory × Store → Prop where
  | place (inv : Inventory) (s : Store) (i : Iid) (x y : Int) :
      Step (inv, s) ((inv.placeAt s i x y).1, (inv.placeAt s i x y).2.1)
  | add (inv : Inventory) (s : Store) (i : Iid) :
      Step (inv, s) ((inv.addItem s i).1, (inv.addItem s i).2.1)
  | remove (inv : Inventory) (s : Store) (i : Iid) :
      Step (inv, s) ((inv.removeItem s i).1, (inv.removeItem s i).2.1)
  | clearStep (inv : Inventory) (s : Store) :
      Step (inv, s) (inv.clear s)
  | transferSrc (inv : Inventory) (s : Store) (i : Iid) (tgt : Inventory)
      (xy? : Option (Int × Int))
      (hOwn : ∀ j, j ∈ inv.items → j ∈ tgt.items → j = i) :
      Step (inv, s) ((inv.transferTo s i tgt xy?).1, (inv.transferTo s i tgt xy?).2.2.1)
  | transferTgt (src : Inventory) (s : Store) (i : Iid) (inv : Inventory)
      (xy? : Option (Int × Int)) :
      Step (inv, s) ((src.transferTo s i inv xy?).2.1, (src.transferTo s i inv xy?).2.2.1)
  | envChange (inv : Inventory) (s s' : Store)
      (hframe : ∀ j, j ∈ inv.items → storeFind s' j = storeFind s j) :
      Step (inv, s) (inv, s')

theorem step_WF {p q : Inventory × Store} (hstep : Step p q) (hwf : WF p.1 p.2) :
    WF q.1 q.2 := by
  cases hstep with
  | place inv s i x y => exact WF_placeAt hwf i x y
  | add inv s i => exact WF_addItem hwf i
  | remove inv s i => exact WF_removeItem hwf i
  | clearStep inv s => exact WF_clear hwf
  | transferSrc inv s i tgt xy? hOwn => exact WF_transferTo_src hwf i xy? hOwn
  | transferTgt src s i inv xy? => exact WF_transferTo_tgt hwf i xy?
  | envChange inv s s' hframe => exact WF_of_frame hwf hframe

/-- States reachable from a freshly constructed `w × h` inventory (with an
arbitrary ambient item heap) by any sequence of operations. -/
def Reach (w h : Nat) (s0 : Store) : Inventory × Store → Prop :=
  Relation.ReflTransGen Step (mkInventory w h, s0)

theorem reach_WF {w h : Nat} {s0 : Store} {p : Inventory × Store}
    (hr : Reach w h s0 p) : WF p.1 p.2 := by
  induction hr with
  | refl => exact WF_mkInventory w h s0
  | tail hsub hstep ih => exact step_WF hstep ih

/-! ## Claim C9: item quantity bounds -/

/-- C9 fails as stated: from the well-formed state `mkItem fixPotion 5`
(quantity 5, maxStack 5), `removeQuantity (-1)` raises the quantity to 6,
leaving the range `[0, maxStack]`.  The claim's "for every integer amount" is
what breaks; negative amounts are not clamped. -/
theorem claim_C9_counterexample :
    0 ≤ (mkItem fixPotion 5).quantity ∧
    (mkItem fixPotion 5).quantity ≤ ((mkItem fixPotion 5).maxStack : Int) ∧
    ((mkItem fixPotion 5).removeQuantity (-1)).1.quantity = 6 ∧
    ¬(((mkItem fixPotion 5).removeQuantity (-1)).1.quantity ≤
      ((((mkItem fixPotion 5).removeQuantity (-1)).1).maxStack : Int)) := by decide

/-- C9 (amended): the constructor clamps to `maxStack` and, for a
non-negative initial quantity, lands in `[0, maxStack]`; `addQuantity` and
`removeQuantity` preserve the bounds for every non-negative amount; `split`
preserves them for every integer amount. -/
theorem claim_C9_amended (c : ItemConfig) (st : ItemState) (q amount : Int)
    (hq0 : 0 ≤ st.quantity) (hqm : st.quantity ≤ (st.maxStack : Int))
    (ha : 0 ≤ amount) :
    (0 ≤ q → 0 ≤ (mkItem c q).quantity ∧
      (mkItem c q).quantity ≤ ((mkItem c q).maxStack : Int)) ∧
    (0 ≤ (st.addQuantity amount).1.quantity ∧
      (st.addQuantity amount).1.quantity ≤ (((st.addQuantity amount).1).maxStack : Int)) ∧
    (0 ≤ (st.removeQuantity amount).1.quantity ∧
      (st.removeQuantity amount).1.quantity ≤
        (((st.removeQuantity amount).1).maxStack : Int)) ∧
    (∀ (a2 : Int) (st1 st2 : ItemState), st.split a2 = some (st1, st2) →
      0 ≤ st1.quantity ∧ st1.quantity ≤ (st1.maxStack : Int) ∧
      0 ≤ st2.quantity ∧ st2.quantity ≤ (st2.maxStack : Int)) := by
  refine ⟨?_, ?_, ?_, ?_⟩
  · intro hq
    unfold mkItem ItemState.maxStack
    dsimp only
    omega
  · unfold ItemState.addQuantity ItemState.maxStack at *
    dsimp only at *
    omega
  · unfold ItemState.removeQuantity ItemState.maxStack at *
    dsimp only at *
    omega
  · intro a2 st1 st2 hs
    unfold ItemState.split at hs
    split at hs
    · cases hs
    case isFalse hcond =>
      push_neg at hcond
      simp only [Option.some.injEq, Prod.mk.injEq] at hs
      obtain ⟨h1, h2⟩ := hs
      subst h1
      subst h2
      unfold mkItem ItemState.maxStack at *
      dsimp only at *
      refine ⟨by omega, by omega, by omega, by omega⟩

theorem claim_C9_witness :
    0 ≤ ((⟨fixPotion, 3, -1, -1⟩ : ItemState).addQuantity 4).1.quantity ∧
    ((⟨fixPotion, 3, -1, -1⟩ : ItemState).addQuantity 4).1.quantity ≤
      ((((⟨fixPotion, 3, -1, -1⟩ : ItemState).addQuantity 4).1).maxStack : Int) :=
  (claim_C9_amended fixPotion ⟨fixPotion, 3, -1, -1⟩ 1 4 (by decide) (by decide)
    (by decide)).2.1

/-! ## Claim C10: addSlot on an existing slot id -/

/-- C10: re-registering a slot id replaces its configuration and resets the
equipped entry to empty — silently discarding whatever was worn there — and
`addSlot` emits no events at all. -/
theorem claim_C10_addSlot (eqp : Equipment) (cfg old : SlotConfig)
    (hreg : mapGet eqp.slots cfg.id = some old) :
    mapGet (eqp.addSlot cfg).1.slots cfg.id = some cfg ∧
    (eqp.addSlot cfg).1.getEquipped cfg.id = none ∧
    (eqp.addSlot cfg).2 = [] := by
  unfold Equipment.addSlot Equipment.getEquipped
  refine ⟨?_, ?_, rfl⟩
  · dsimp only
    rw [mapGet_mapSet, if_pos rfl]
  · dsimp only
    rw [mapGet_mapSet, if_pos rfl]
    rfl

theorem claim_C10_witness :
    mapGet (eqpC1.addSlot ⟨"s", "S2", ["y"]⟩).1.slots "s" = some ⟨"s", "S2", ["y"]⟩ ∧
    (eqpC1.addSlot ⟨"s", "S2", ["y"]⟩).1.getEquipped "s" = none ∧
    (eqpC1.addSlot ⟨"s", "S2", ["y"]⟩).2 = [] :=
  claim_C10_addSlot eqpC1 ⟨"s", "S2", ["y"]⟩ ⟨"s", "S", ["x"]⟩ (by decide)

/-! ## Claim C7: equip semantics and event order -/

/-- C7: `equip` is a no-op returning empty (and emitting nothing) when
`canEquipAt` fails; otherwise it unconditionally overwrites the slot,
returns the previously equipped item (empty if none), leaves every other
slot and the slot registry untouched, and emits `unequipped` for the
displaced item (only when one was present) before `equipped`, with `changed`
last. -/
theorem claim_C7_equip (eqp : Equipment) (i : Iid) (st : ItemState) (slot : String) :
    (eqp.canEquipAt st slot = false → eqp.equip i st slot = (eqp, none, [])) ∧
    (eqp.canEquipAt st slot = true →
      (eqp.equip i st slot).2.1 = eqp.getEquipped slot ∧
      (eqp.equip i st slot).1.slots = eqp.slots ∧
      (eqp.equip i st slot).1.getEquipped slot = some i ∧
      (∀ slot', slot' ≠ slot →
        (eqp.equip i st slot).1.getEquipped slot' = eqp.getEquipped slot') ∧
      (eqp.equip i st slot).2.2 =
        (match eqp.getEquipped slot with
         | some p => [EquipEvent.unequippedEv slot p]
         | none => []) ++ [EquipEvent.equippedEv slot i, EquipEvent.changedEv]) := by
  constructor
  · intro hc
    unfold Equipment.equip
    rw [if_neg (by rw [hc]; exact fun hh => by cases hh)]
  · intro hc
    unfold Equipment.equip Equipment.getEquipped
    rw [if_pos hc]
    refine ⟨rfl, rfl, ?_, ?_, rfl⟩
    · dsimp only
      rw [mapGet_mapSet, if_pos rfl]
      rfl
    · intro slot' hs
      dsimp only
      rw [mapGet_mapSet, if_neg hs]

theorem claim_C7_witness :
    (eqpC1.equip 3 ⟨fixPlain, 1, -1, -1⟩ "s").2.1 = eqpC1.getEquipped "s" ∧
    (eqpC1.equip 3 ⟨fixPlain, 1, -1, -1⟩ "s").1.getEquipped "s" = some 3 ∧
    (eqpC1.equip 3 ⟨fixPlain, 1, -1, -1⟩ "s").2.2 =
      [EquipEvent.unequippedEv "s" 2, EquipEvent.equippedEv "s" 3,
       EquipEvent.changedEv] := by
  have h := (claim_C7_equip eqpC1 3 ⟨fixPlain, 1, -1, -1⟩ "s").2 (by decide)
  refine ⟨h.1, h.2.2.1, ?_⟩
  rw [h.2.2.2.2]
  decide

/-! ## Claim C4: stack conservation -/

/-- C4: the stack-merge step of `addItem` (one iteration of its loop over
tracked items, here with `B` as the candidate stack) moves `min(a, m-b)`
units from the incoming item `A` into the tracked stack `B`: `B` ends at
`min(m, b+a)`, `A` at `a - min(a, m-b)`, and the total quantity `a + b` is
conserved. -/
theorem claim_C4_stack_conservation (s : Store) (i j : Iid) (stA stB : ItemState)
    (m : Nat) (a b : Int)
    (hij : i ≠ j)
    (hfi : storeFind s i = some stA) (hfj : storeFind s j = some stB)
    (ha : stA.quantity = a) (hb : stB.quantity = b)
    (hid : stB.config.id = stA.config.id)
    (hmB : stB.maxStack = m) (hmA : stA.maxStack = m)
    (hstack : stB.isStackable = true)
    (hbpos : 0 < b) (hcap : b < (m : Int)) (ha0 : 0 ≤ a) :
    ∃ (s2 : Store) (merged : Bool), stackLoop s i [j] = (s2, merged) ∧
      (storeFind s2 j).map (fun r => r.quantity) = some (min (m : Int) (b + a)) ∧
      (storeFind s2 i).map (fun r => r.quantity) = some (a - min a ((m : Int) - b)) ∧
      min (m : Int) (b + a) + (a - min a ((m : Int) - b)) = a + b := by
  have hmB' : stB.config.maxStack = m := hmB
  have hcs : (stB.canStackWith stA && stB.canAddMore) = true := by
    have h1 : stB.canStackWith stA = true := by
      unfold ItemState.canStackWith
      rw [hid]
      simp [hstack]
    have h2 : stB.canAddMore = true := by
      unfold ItemState.canAddMore
      rw [hb, hmB]
      simp only [decide_eq_true_eq]
      exact hcap
    rw [h1, h2]
    rfl
  have hfind1 : storeFind (storeSet s j (stB.addQuantity stA.quantity).1) i = some stA := by
    rw [storeFind_storeSet, if_neg hij]
    exact hfi
  have hj2 : storeFind (storeSet (storeSet s j (stB.addQuantity stA.quantity).1) i
      ((stA.removeQuantity (stB.addQuantity stA.quantity).2).1)) j =
      some (stB.addQuantity stA.quantity).1 := by
    rw [storeFind_storeSet, if_neg (Ne.symm hij), storeFind_storeSet, if_pos rfl]
  have hi2 : storeFind (storeSet (storeSet s j (stB.addQuantity stA.quantity).1) i
      ((stA.removeQuantity (stB.addQuantity stA.quantity).2).1)) i =
      some ((stA.removeQuantity (stB.addQuantity stA.quantity).2).1) := by
    rw [storeFind_storeSet, if_pos rfl]
  have hqj : (storeFind (storeSet (storeSet s j (stB.addQuantity stA.quantity).1) i
      ((stA.removeQuantity (stB.addQuantity stA.quantity).2).1)) j).map
        (fun r => r.quantity) = some (min (m : Int) (b + a)) := by
    rw [hj2]
    unfold ItemState.addQuantity ItemState.maxStack
    dsimp only
    rw [ha, hb, hmB']
    simp only [Option.map_some']
    congr 1
    omega
  have hqi : (storeFind (storeSet (storeSet s j (stB.addQuantity stA.quantity).1) i
      ((stA.removeQuantity (stB.addQuantity stA.quantity).2).1)) i).map
        (fun r => r.quantity) = some (a - min a ((m : Int) - b)) := by
    rw [hi2]
    unfold ItemState.removeQuantity ItemState.addQuantity ItemState.maxStack
    dsimp only
    rw [ha, hb, hmB']
    simp only [Option.map_some']
    congr 1
    omega
  rw [stackLoop, hfj, hfi]
  dsimp only
  rw [if_pos hcs, hfind1]
  dsimp only
  by_cases hz : ((stA.removeQuantity (stB.addQuantity stA.quantity).2).1).quantity = 0
  · rw [if_pos hz]
    exact ⟨_, _, rfl, hqj, hqi, by omega⟩
  · rw [if_neg hz, stackLoop]
    exact ⟨_, _, rfl, hqj, hqi, by omega⟩

theorem claim_C4_witness :
    ∃ (s2 : Store) (merged : Bool),
      stackLoop [(1, ⟨fixPotion, 3, 0, 0⟩), (2, ⟨fixPotion, 4, -1, -1⟩)] 2 [1] =
        (s2, merged) ∧
      (storeFind s2 1).map (fun r => r.quantity) = some (min (5 : Int) (3 + 4)) ∧
      (storeFind s2 2).map (fun r => r.quantity) = some (4 - min 4 ((5 : Int) - 3)) ∧
      min (5 : Int) (3 + 4) + (4 - min 4 ((5 : Int) - 3)) = 4 + 3 :=
  claim_C4_stack_conservation
    [(1, ⟨fixPotion, 3, 0, 0⟩), (2, ⟨fixPotion, 4, -1, -1⟩)] 2 1
    ⟨fixPotion, 4, -1, -1⟩ ⟨fixPotion, 3, 0, 0⟩ 5 4 3
    (by decide) (by decide) (by decide) (by decide) (by decide) (by decide)
    (by decide) (by decide) (by decide) (by decide) (by decide) (by decide)

/-! ## Claim C6: round-trip placement -/

/-- C6: after a successful `placeAt(item, x, y)`, `getItemAt` returns the
item on every cell of its footprint; a subsequent `removeItem` succeeds and
leaves every footprint cell empty; and `removeItem` returns `false` (with no
change) whenever the item is not tracked. -/
theorem claim_C6_round_trip (inv : Inventory) (s : Store) (i : Iid) (st : ItemState)
    (x y : Int) (hshape : gridShape inv.grid inv.width inv.height)
    (hf : storeFind s i = some st)
    (hplace : (inv.placeAt s i x y).2.2 = true) :
    (∀ cx cy : Int, x ≤ cx → cx < x + st.config.width → y ≤ cy →
      cy < y + st.config.height →
      (inv.placeAt s i x y).1.getItemAt cx cy = some i) ∧
    ((inv.placeAt s i x y).1.removeItem (inv.placeAt s i x y).2.1 i).2.2 = true ∧
    (∀ cx cy : Int, x ≤ cx → cx < x + st.config.width → y ≤ cy →
      cy < y + st.config.height →
      ((inv.placeAt s i x y).1.removeItem (inv.placeAt s i x y).2.1 i).1.getItemAt
        cx cy = none) ∧
    (∀ (inv' : Inventory) (s' : Store) (j : Iid), j ∉ inv'.items →
      inv'.removeItem s' j = (inv', s', false)) := by
  have hcan : inv.canPlaceAt i st x y = true := by
    by_cases hc : inv.canPlaceAt i st x y = true
    · exact hc
    · rw [placeAt_not_can hf hc] at hplace
      cases hplace
  have hcanP := (canPlaceAt_eq_true_iff inv i st x y).mp hcan
  obtain ⟨hx0, hy0, hxw, hyh, -⟩ := hcanP
  have hxwN : x.toNat + st.config.width ≤ inv.width := by omega
  have hyhN : y.toNat + st.config.height ≤ inv.height := by omega
  have hs1 : gridShape (if inv.items.contains i then clearG inv.grid i else inv.grid)
      inv.width inv.height := by
    split
    · exact gridShape_clearG hshape i
    · exact hshape
  have hcells2 := fun x' y' => getCellG_writeRect hs1 i hxwN hyhN x' y'
  have hcellIn : ∀ cx cy : Int, x ≤ cx → cx < x + st.config.width → y ≤ cy →
      cy < y + st.config.height →
      getCellG (writeRect (if inv.items.contains i then clearG inv.grid i else inv.grid)
        i x.toNat y.toNat st.config.width st.config.height) cx.toNat cy.toNat = some i := by
    intro cx cy h1 h2 h3 h4
    rw [hcells2, if_pos (by omega)]
  rw [placeAt_can hf hcan]
  refine ⟨?_, ?_, ?_, ?_⟩
  · intro cx cy h1 h2 h3 h4
    unfold Inventory.getItemAt
    dsimp only
    rw [if_neg (by omega)]
    exact hcellIn cx cy h1 h2 h3 h4
  · rw [removeItem_tracked (List.elem_iff.mpr (mem_addIid.mpr (Or.inr rfl)))
      (by rw [storeFind_storeSet, if_pos rfl])]
  · intro cx cy h1 h2 h3 h4
    rw [removeItem_tracked (List.elem_iff.mpr (mem_addIid.mpr (Or.inr rfl)))
      (by rw [storeFind_storeSet, if_pos rfl])]
    unfold Inventory.getItemAt
    dsimp only
    rw [if_neg (by omega), getCellG_clearG, if_pos (hcellIn cx cy h1 h2 h3 h4)]
  · intro inv' s' j hj
    exact removeItem_not_tracked (fun hc => hj (List.elem_iff.mp hc))

theorem claim_C6_witness :
    ((mkInventory 2 2).placeAt sC8 6 0 0).1.getItemAt 0 0 = some 6 ∧
    (((mkInventory 2 2).placeAt sC8 6 0 0).1.removeItem
      ((mkInventory 2 2).placeAt sC8 6 0 0).2.1 6).2.2 = true ∧
    (((mkInventory 2 2).placeAt sC8 6 0 0).1.removeItem
      ((mkInventory 2 2).placeAt sC8 6 0 0).2.1 6).1.getItemAt 0 0 = none := by
  have h := claim_C6_round_trip (mkInventory 2 2) sC8 6
    ⟨fixBlock, 1, -1, -1⟩ 0 0 (gridShape_mkGrid 2 2) (by decide) (by decide)
  exact ⟨h.1 0 0 (by decide) (by decide) (by decide) (by decide), h.2.1,
    h.2.2.1 0 0 (by decide) (by decide) (by decide) (by decide)⟩

/-! ## Claim C8: the row-major scan -/

theorem stackLoop_done {i : Iid} :
    ∀ {l : List Iid} {s s1 : Store}, stackLoop s i l = (s1, true) →
      ∃ st, storeFind s1 i = some st ∧ st.quantity = 0 := by
  intro l
  induction l with
  | nil =>
    intro s s1 h
    cases h
  | cons k rest ih =>
    intro s s1 h
    rw [stackLoop] at h
    cases hk : storeFind s k with
    | none => rw [hk] at h; cases h
    | some stJ =>
      cases hi : storeFind s i with
      | none => rw [hk, hi] at h; cases h
      | some stI =>
        rw [hk, hi] at h
        dsimp only at h
        by_cases hcs : (stJ.canStackWith stI && stJ.canAddMore) = true
        · rw [if_pos hcs] at h
          cases hI1 : storeFind (storeSet s k (stJ.addQuantity stI.quantity).1) i with
          | none => rw [hI1] at h; cases h
          | some stI1 =>
            rw [hI1] at h
            dsimp only at h
            by_cases hz : ((stI1.removeQuantity (stJ.addQuantity stI.quantity).2).1).quantity = 0
            · rw [if_pos hz] at h
              cases h
              exact ⟨_, by rw [storeFind_storeSet, if_pos rfl], hz⟩
            · rw [if_neg hz] at h
              exact ih h
        · rw [if_neg hcs] at h
          exact ih h

/-- C8: `findEmptySpace` returns the first anchor, scanning rows
top-to-bottom and columns left-to-right, whose `w × h` region lies fully in
bounds and is entirely empty; it returns `none` exactly when no such region
exists; and whenever `addItem` ends by placing the item (it returned `true`
and the item kept a positive quantity), the position stored for the item is
exactly the one this same scan discovers, so placement is deterministic in
the grid state. -/
theorem claim_C8_findEmptySpace (inv : Inventory) (w h : Nat) :
    (∀ x y : Nat, inv.findEmptySpace w h = some (x, y) ↔
      (x + w ≤ inv.width ∧ y + h ≤ inv.height ∧ inv.isAreaEmpty x y w h = true ∧
        ∀ x' y' : Nat, x' + w ≤ inv.width → y' + h ≤ inv.height →
          (y' < y ∨ (y' = y ∧ x' < x)) → inv.isAreaEmpty x' y' w h = false)) ∧
    (inv.findEmptySpace w h = none ↔
      ∀ x y : Nat, x + w ≤ inv.width → y + h ≤ inv.height →
        inv.isAreaEmpty x y w h = false) ∧
    (∀ (s : Store) (i : Iid) (st' : ItemState),
      (inv.addItem s i).2.2 = true →
      storeFind (inv.addItem s i).2.1 i = some st' →
      0 < st'.quantity →
      ∃ x y : Nat, inv.findEmptySpace st'.config.width st'.config.height = some (x, y) ∧
        st'.gridX = x ∧ st'.gridY = y) := by
  refine ⟨fun x y => findEmptySpace_eq_some_iff inv w h x y,
    findEmptySpace_eq_none_iff inv w h, ?_⟩
  intro s i st' htrue hfind hqty
  have main : ∀ (s1 : Store), storeFind ((inv.addItemPlace s1 i).2.1) i = some st' →
      (inv.addItemPlace s1 i).2.2 = true →
      ∃ x y : Nat, inv.findEmptySpace st'.config.width st'.config.height = some (x, y) ∧
        st'.gridX = x ∧ st'.gridY = y := by
    intro s1 hfind1 htrue1
    cases hf1 : storeFind s1 i with
    | none =>
      rw [addItemPlace_dangling hf1] at htrue1
      cases htrue1
    | some st1 =>
      by_cases hq1 : 0 < st1.quantity
      · cases hfe : inv.findEmptySpace st1.config.width st1.config.height with
        | none =>
          rw [addItemPlace_no_space hf1 hq1 hfe] at htrue1
          cases htrue1
        | some pos =>
          rw [addItemPlace_place hf1 hq1 hfe] at htrue1 hfind1
          by_cases hc : inv.canPlaceAt i st1 pos.1 pos.2 = true
          · rw [placeAt_can hf1 hc] at hfind1
            rw [storeFind_storeSet, if_pos rfl] at hfind1
            cases hfind1
            refine ⟨pos.1, pos.2, ?_, rfl, rfl⟩
            exact hfe
          · rw [placeAt_not_can hf1 hc] at htrue1
            cases htrue1
      · rw [addItemPlace_qty_nonpos hf1 hq1] at hfind1
        dsimp only at hfind1
        rw [hf1] at hfind1
        cases hfind1
        exact absurd hqty hq1
  cases hf : storeFind s i with
  | none =>
    rw [addItem_dangling hf] at htrue
    cases htrue
  | some st =>
    by_cases hst : st.isStackable = true
    · cases hsl : stackLoop s i inv.items with
      | mk s1 b =>
        cases b
        · rw [addItem_stack_cont hf hst hsl] at htrue hfind
          exact main s1 hfind htrue
        · rw [addItem_stack_done hf hst hsl] at htrue hfind
          obtain ⟨st0, hst0, hq0⟩ := stackLoop_done hsl
          rw [hst0] at hfind
          cases hfind
          rw [hq0] at hqty
          cases hqty
    · rw [addItem_nonstackable hf hst] at htrue hfind
      exact main s hfind htrue

theorem claim_C8_witness :
    ∃ x y : Nat,
      (mkInventory 2 2).findEmptySpace 1 1 = some (x, y) ∧
      ((0 : Int) = x) ∧ ((0 : Int) = y) := by
  obtain ⟨x, y, h1, h2, h3⟩ := (claim_C8_findEmptySpace (mkInventory 2 2) 1 1).2.2
    sC8 6 ⟨fixBlock, 1, 0, 0⟩ (by decide) (by decide) (by decide)
  exact ⟨x, y, h1, h2, h3⟩

/-! ## Claim C5: unequipItem -/

theorem unequip_some {eqp : Equipment} {slot : String} {i : Iid}
    (hge : eqp.getEquipped slot = some i) :
    eqp.unequip slot = ({ eqp with equipped := mapSet eqp.equipped slot none }, some i,
      [EquipEvent.unequippedEv slot i, EquipEvent.changedEv]) := by
  unfold Equipment.getEquipped at hge
  unfold Equipment.unequip
  rw [hge]

/-- C5: `unequipItem` fails (returning `false`, touching neither the
Equipment nor the Inventory nor any item) when the slot is empty or when
`findEmptySpace` finds no region matching the worn item's footprint; on
success it returns `true`, clears the slot (leaving the slot registry
intact), and places the item at exactly the position `findEmptySpace`
discovered. -/
theorem claim_C5_unequipItem (inv : Inventory) (eqp : Equipment) (s : Store)
    (slot : String) :
    (eqp.getEquipped slot = none →
      InventoryComponent.unequipItem ⟨inv, some eqp⟩ s slot = (⟨inv, some eqp⟩, s, false)) ∧
    (∀ (i : Iid) (st : ItemState), eqp.getEquipped slot = some i →
      storeFind s i = some st →
      (inv.findEmptySpace st.config.width st.config.height = none →
        InventoryComponent.unequipItem ⟨inv, some eqp⟩ s slot =
          (⟨inv, some eqp⟩, s, false)) ∧
      (∀ x y : Nat, inv.findEmptySpace st.config.width st.config.height = some (x, y) →
        (InventoryComponent.unequipItem ⟨inv, some eqp⟩ s slot).2.2 = true ∧
        (∃ eqp', (InventoryComponent.unequipItem ⟨inv, some eqp⟩ s slot).1.equipment =
            some eqp' ∧ eqp'.getEquipped slot = none ∧ eqp'.slots = eqp.slots) ∧
        (∃ st', storeFind (InventoryComponent.unequipItem ⟨inv, some eqp⟩ s slot).2.1 i =
            some st' ∧ st'.gridX = x ∧ st'.gridY = y ∧ st'.config = st.config ∧
            st'.quantity = st.quantity) ∧
        i ∈ (InventoryComponent.unequipItem ⟨inv, some eqp⟩ s slot).1.inventory.items)) := by
  constructor
  · intro hge
    unfold InventoryComponent.unequipItem
    dsimp only
    rw [hge]
  · intro i st hge hf
    constructor
    · intro hfe
      unfold InventoryComponent.unequipItem
      dsimp only
      rw [hge]
      dsimp only
      rw [hf]
      dsimp only
      rw [hfe]
    · intro x y hfe
      obtain ⟨hbw, hbh, hemp, -⟩ := (findEmptySpace_eq_some_iff inv st.config.width
        st.config.height x y).mp hfe
      have hcan := canPlaceAt_of_empty inv i st x y hbw hbh hemp
      unfold InventoryComponent.unequipItem
      dsimp only
      rw [hge]
      dsimp only
      rw [hf]
      dsimp only
      rw [hfe]
      dsimp only
      rw [unequip_some hge, placeAt_can hf hcan]
      dsimp only
      refine ⟨rfl, ⟨_, rfl, ?_, rfl⟩,
        ⟨{ st with gridX := (x : Int), gridY := (y : Int) },
          by rw [storeFind_storeSet, if_pos rfl], rfl, rfl, rfl, rfl⟩, ?_⟩
      · unfold Equipment.getEquipped
        dsimp only
        rw [mapGet_mapSet, if_pos rfl]
        rfl
      · exact mem_addIid.mpr (Or.inr rfl)

theorem claim_C5_witness :
    (InventoryComponent.unequipItem ⟨mkInventory 1 1, some eqpC5⟩ sC5 "s").2.2 = true ∧
    (∃ eqp', (InventoryComponent.unequipItem
        ⟨mkInventory 1 1, some eqpC5⟩ sC5 "s").1.equipment = some eqp' ∧
      eqp'.getEquipped "s" = none ∧ eqp'.slots = eqpC5.slots) ∧
    (∃ st', storeFind (InventoryComponent.unequipItem
        ⟨mkInventory 1 1, some eqpC5⟩ sC5 "s").2.1 2 = some st' ∧
      st'.gridX = 0 ∧ st'.gridY = 0 ∧ st'.config = fixPlain ∧ st'.quantity = 1) ∧
    2 ∈ (InventoryComponent.unequipItem
      ⟨mkInventory 1 1, some eqpC5⟩ sC5 "s").1.inventory.items :=
  ((claim_C5_unequipItem (mkInventory 1 1) eqpC5 sC5 "s").2 2 ⟨fixPlain, 1, -1, -1⟩
    (by decide) (by decide)).2 0 0 (by decide)

/-! ## Claim C3: the reachable-state invariant -/

/-- C3: in every state reachable from a freshly constructed inventory by any
sequence of `placeAt`, `addItem`, `removeItem`, `transferTo` (either side)
and `clear` — under the claim's side condition that an item is held by at
most one inventory at a time, expressed by the transfer/environment steps of
`Step` — every occupied cell's occupant is tracked, every tracked item
occupies exactly the `width × height` rectangle anchored at its stored
`(gridX, gridY)` (which lies fully in bounds), and the rectangles of two
distinct tracked items never intersect. -/
theorem claim_C3_invariant (w h : Nat) (s0 : Store) (inv : Inventory) (s : Store)
    (hr : Reach w h s0 (inv, s)) :
    (∀ x y i, getCellG inv.grid x y = some i → i ∈ inv.items) ∧
    (∀ i, i ∈ inv.items → ∃ st, storeFind s i = some st ∧
      0 ≤ st.gridX ∧ 0 ≤ st.gridY ∧
      st.gridX + st.config.width ≤ (inv.width : Int) ∧
      st.gridY + st.config.height ≤ (inv.height : Int) ∧
      ∀ x y : Nat, (getCellG inv.grid x y = some i ↔ inRect st x y)) ∧
    (∀ (i j : Iid) (sti stj : ItemState) (x y : Nat), i ∈ inv.items → j ∈ inv.items →
      i ≠ j → storeFind s i = some sti → storeFind s j = some stj →
      ¬(inRect sti x y ∧ inRect stj x y)) := by
  have hwf : WF inv s := reach_WF hr
  refine ⟨hwf.2.2.1, hwf.2.2.2, ?_⟩
  rintro i j sti stj x y hi hj hij hfi hfj ⟨hri, hrj⟩
  obtain ⟨sti', hfi', -, -, -, -, hiffi⟩ := hwf.2.2.2 i hi
  obtain ⟨stj', hfj', -, -, -, -, hiffj⟩ := hwf.2.2.2 j hj
  rw [hfi] at hfi'
  rw [hfj] at hfj'
  have hei : sti = sti' := Option.some.inj hfi'
  have hej : stj = stj' := Option.some.inj hfj'
  subst hei
  subst hej
  have hci : getCellG inv.grid x y = some i := (hiffi x y).mpr hri
  have hcj : getCellG inv.grid x y = some j := (hiffj x y).mpr hrj
  rw [hci] at hcj
  exact hij (Option.some.inj hcj)

theorem claim_C3_witness :
    ∃ st, storeFind ((mkInventory 2 2).placeAt sC8 6 0 0).2.1 6 = some st ∧
      0 ≤ st.gridX ∧ 0 ≤ st.gridY ∧
      st.gridX + st.config.width ≤ ((((mkInventory 2 2).placeAt sC8 6 0 0).1).width : Int) ∧
      st.gridY + st.config.height ≤
        ((((mkInventory 2 2).placeAt sC8 6 0 0).1).height : Int) ∧
      ∀ x y : Nat,
        (getCellG (((mkInventory 2 2).placeAt sC8 6 0 0).1).grid x y = some 6 ↔
          inRect st x y) :=
  (claim_C3_invariant 2 2 sC8 _ _
    (Relation.ReflTransGen.single (Step.place (mkInventory 2 2) sC8 6 0 0))).2.1 6
    (by decide)

/-! ## Claim C2: transferTo failure atomicity -/

/-- C2 fails as stated: with auto-placement, the target's `addItem` can merge
part of the item's quantity into a compatible stack of the target and still
fail for lack of space; `transferTo` then returns `false` with the item's
quantity changed (here 4 → 2) even though the claim demands the item's
quantity be exactly as before. -/
theorem claim_C2_counterexample :
    (srcC2.transferTo sC2 1 tgtC2 none).2.2.2 = false ∧
    (storeFind sC2 1).map (fun r => r.quantity) = some 4 ∧
    (storeFind (srcC2.transferTo sC2 1 tgtC2 none).2.2.1 1).map (fun r => r.quantity) =
      some 2 := by decide

/-- C2 (amended): when `transferTo` returns `false` the source inventory
value (grid cells and tracked set) and the target inventory value are
unchanged, every item keeps its position and configuration (in particular
the transferred item keeps its stored position and stays tracked in the
source), and when explicit coordinates were given the heap is completely
unchanged, so the item's quantity too; only in the auto-placement case may
quantities have been redistributed into the target's compatible stacks.
When it returns `true`, the item has been untracked and cleared from the
source grid (the target accepted it first). -/
theorem claim_C2_amended (src tgt : Inventory) (s : Store) (i : Iid)
    (xy? : Option (Int × Int)) :
    ((src.transferTo s i tgt xy?).2.2.2 = false →
      (src.transferTo s i tgt xy?).1 = src ∧
      (src.transferTo s i tgt xy?).2.1 = tgt ∧
      (∀ j, posCfg (storeFind (src.transferTo s i tgt xy?).2.2.1 j) =
        posCfg (storeFind s j)) ∧
      (∀ x y : Int, xy? = some (x, y) → (src.transferTo s i tgt xy?).2.2.1 = s)) ∧
    ((src.transferTo s i tgt xy?).2.2.2 = true →
      i ∉ (src.transferTo s i tgt xy?).1.items ∧
      ∀ x y : Nat, getCellG (src.transferTo s i tgt xy?).1.grid x y ≠ some i) := by
  by_cases hcont : src.items.contains i = true
  case neg =>
    rw [transferTo_not_tracked hcont]
    constructor
    · intro _
      exact ⟨rfl, rfl, fun j => rfl, fun x y _ => rfl⟩
    · intro htrue
      cases htrue
  case pos =>
    unfold Inventory.transferTo
    rw [if_pos hcont]
    cases xy? with
    | none =>
      dsimp only
      cases hb : (tgt.addItem s i).2.2
      · rw [if_neg (by simp)]
        constructor
        · intro _
          refine ⟨rfl, (addItem_false hb).1, (addItem_false hb).2, ?_⟩
          intro x y hxy
          cases hxy
        · intro htrue
          cases htrue
      · rw [if_pos rfl]
        constructor
        · intro hfalse
          cases hfalse
        · intro _
          constructor
          · intro hmem
            exact (mem_filterNe.mp hmem).2 rfl
          · intro x y
            show getCellG (clearG src.grid i) x y ≠ some i
            rw [getCellG_clearG]
            split
            · exact fun hh => by cases hh
            case isFalse hold => exact hold
    | some xy =>
      cases xy with
      | mk x y =>
        dsimp only
        cases hb : (tgt.placeAt s i x y).2.2
        · rw [if_neg (by simp)]
          rw [placeAt_false hb]
          constructor
          · intro _
            exact ⟨rfl, rfl, fun j => rfl, fun _ _ _ => rfl⟩
          · intro htrue
            cases htrue
        · rw [if_pos rfl]
          constructor
          · intro hfalse
            cases hfalse
          · intro _
            constructor
            · intro hmem
              exact (mem_filterNe.mp hmem).2 rfl
            · intro x' y'
              show getCellG (clearG src.grid i) x' y' ≠ some i
              rw [getCellG_clearG]
              split
              · exact fun hh => by cases hh
              case isFalse hold => exact hold

theorem claim_C2_witness :
    (srcC2.transferTo sC2 1 tgtC2 none).1 = srcC2 ∧
    (srcC2.transferTo sC2 1 tgtC2 none).2.1 = tgtC2 ∧
    (∀ j, posCfg (storeFind (srcC2.transferTo sC2 1 tgtC2 none).2.2.1 j) =
      posCfg (storeFind sC2 j)) ∧
    (∀ x y : Int, (none : Option (Int × Int)) = some (x, y) →
      (srcC2.transferTo sC2 1 tgtC2 none).2.2.1 = sC2) :=
  (claim_C2_amended srcC2 tgtC2 sC2 1 none).1 (by decide)

/-! ## Claim C1: equipItem rollback -/

theorem removeItem_find_self {inv : Inventory} {s : Store} {i : Iid} {st : ItemState}
    (hf : storeFind s i = some st) :
    ∃ st1, storeFind (inv.removeItem s i).2.1 i = some st1 ∧ st1.config = st.config := by
  by_cases hcont : inv.items.contains i = true
  · rw [removeItem_tracked hcont hf]
    exact ⟨{ st with gridX := -1, gridY := -1 },
      by rw [storeFind_storeSet, if_pos rfl], rfl⟩
  · rw [removeItem_not_tracked hcont]
    exact ⟨st, hf, rfl⟩

theorem removeItem_find_other {inv : Inventory} {s : Store} {i : Iid} (j : Iid)
    (hj : j ≠ i) :
    storeFind (inv.removeItem s i).2.1 j = storeFind s j := by
  by_cases hcont : inv.items.contains i = true
  · cases hf : storeFind s i with
    | none => rw [removeItem_tracked_dangling hcont hf]
    | some st =>
      rw [removeItem_tracked hcont hf]
      exact (storeFind_storeSet s i j _).trans (if_neg hj)
  · rw [removeItem_not_tracked hcont]

theorem canEquipAt_config {eqp : Equipment} {st st' : ItemState} {slot : String}
    (h : st.config = st'.config) :
    eqp.canEquipAt st slot = eqp.canEquipAt st' slot := by
  unfold Equipment.canEquipAt
  rw [h]

theorem equip_can {eqp : Equipment} {i : Iid} {st : ItemState} {slot : String}
    (hc : eqp.canEquipAt st slot = true) :
    eqp.equip i st slot =
      ({ eqp with equipped := mapSet eqp.equipped slot (some i) },
       (mapGet eqp.equipped slot).getD none,
       (match (mapGet eqp.equipped slot).getD none with
        | some p => [EquipEvent.unequippedEv slot p]
        | none => []) ++ [EquipEvent.equippedEv slot i, EquipEvent.changedEv]) := by
  unfold Equipment.equip
  rw [if_pos hc]

/-- C1 fails as stated: on the rollback path the call does return `false`
and the displaced potion stack (item 2) is re-equipped in slot `"s"`, but
the combined state is not identical to the pre-call state — the failed
re-add of the displaced stackable item merged two units into the inventory
stack (item 1: quantity 3 → 5) and that merge is not undone. -/
theorem claim_C1_counterexample :
    (InventoryComponent.equipItem ⟨invC1, some eqpC1⟩ sC1 3 (some "s")).2.2 = false ∧
    (match (InventoryComponent.equipItem ⟨invC1, some eqpC1⟩ sC1 3
        (some "s")).1.equipment with
      | some e => e.getEquipped "s"
      | none => none) = some 2 ∧
    (storeFind sC1 1).map (fun r => r.quantity) = some 3 ∧
    (storeFind (InventoryComponent.equipItem ⟨invC1, some eqpC1⟩ sC1 3
      (some "s")).2.1 1).map (fun r => r.quantity) = some 5 := by decide

/-- C1 (amended): when `equipItem` takes its failure path — the displaced
item `p` cannot be re-added to the inventory — the call returns `false` and
`p` is re-equipped in the same slot (the slot registry unchanged).  The
combined state need not be restored: stack merging performed by the failed
re-add of `p` (and by the rollback re-add of the original item) is not
undone, so quantities may be redistributed into compatible inventory stacks,
and the original item may re-enter at a different position or be merged
away. -/
theorem claim_C1_amended (inv : Inventory) (eqp : Equipment) (s : Store) (i p : Iid)
    (st stP0 : ItemState) (slot : String)
    (hne : ¬ slot = "")
    (hip : i ≠ p)
    (hfi : storeFind s i = some st)
    (hfp0 : storeFind s p = some stP0)
    (hcanI : eqp.canEquipAt st slot = true)
    (hcanP : eqp.canEquipAt stP0 slot = true)
    (hprev : eqp.getEquipped slot = some p)
    (hfail : ((inv.removeItem s i).1.addItem (inv.removeItem s i).2.1 p).2.2 = false) :
    (InventoryComponent.equipItem ⟨inv, some eqp⟩ s i (some slot)).2.2 = false ∧
    ∃ eqp', (InventoryComponent.equipItem ⟨inv, some eqp⟩ s i (some slot)).1.equipment =
        some eqp' ∧ eqp'.getEquipped slot = some p ∧ eqp'.slots = eqp.slots := by
  obtain ⟨st1, hfst1, hcfg1⟩ := @removeItem_find_self inv s i st hfi
  have hcan1 : eqp.canEquipAt st1 slot = true := (canEquipAt_config hcfg1).trans hcanI
  have hprev' : (mapGet eqp.equipped slot).getD none = some p := hprev
  have hpos := (addItem_false hfail).2 p
  rw [removeItem_find_other p (Ne.symm hip), hfp0] at hpos
  unfold InventoryComponent.equipItem
  dsimp only
  rw [hfi]
  dsimp only
  rw [if_neg hne, if_pos hcanI, hfst1]
  dsimp only
  rw [equip_can hcan1]
  dsimp only
  rw [hprev']
  dsimp only
  rw [if_neg (by simp [hfail])]
  cases hfP : storeFind ((inv.removeItem s i).1.addItem
      (inv.removeItem s i).2.1 p).2.1 p with
  | none =>
    rw [hfP] at hpos
    cases hpos
  | some stP =>
    rw [hfP] at hpos
    simp only [posCfg, Option.some.injEq, Prod.mk.injEq] at hpos
    obtain ⟨-, -, hcfgP⟩ := hpos
    dsimp only
    have hcanP1 : ({ eqp with equipped := mapSet eqp.equipped slot (some i) } :
        Equipment).canEquipAt stP slot = true := by
      show eqp.canEquipAt stP slot = true
      exact (canEquipAt_config hcfgP).trans hcanP
    rw [equip_can hcanP1]
    dsimp only
    cases hwas : (inv.removeItem s i).2.2
    · rw [if_neg (by simp)]
      refine ⟨rfl, _, rfl, ?_, rfl⟩
      unfold Equipment.getEquipped
      dsimp only
      rw [mapGet_mapSet, if_pos rfl]
      rfl
    · rw [if_pos rfl]
      refine ⟨rfl, _, rfl, ?_, rfl⟩
      unfold Equipment.getEquipped
      dsimp only
      rw [mapGet_mapSet, if_pos rfl]
      rfl

theorem claim_C1_witness :
    (InventoryComponent.equipItem ⟨invC1, some eqpC1⟩ sC1 3 (some "s")).2.2 = false ∧
    ∃ eqp', (InventoryComponent.equipItem ⟨invC1, some eqpC1⟩ sC1 3
        (some "s")).1.equipment = some eqp' ∧
      eqp'.getEquipped "s" = some 2 ∧ eqp'.slots = eqpC1.slots :=
  claim_C1_amended invC1 eqpC1 sC1 3 2 ⟨fixPlain, 1, -1, -1⟩ ⟨fixPotion, 4, -1, -1⟩ "s"
    (by decide) (by decide) (by decide) (by decide) (by decide) (by decide) (by decide)
    (by decide)
